import Mathlib

/-!
Verification of the Telegram/Linear ticket bot core: a shallow embedding of
the identity directory (`userMappings.ts`), the identity resolver and command
interpreter post-processing (`AIService`, latest variant), the action
dispatcher and webhook reconciler (`LinearBotService`), and the webhook
controller (`LinearWebhookController`, deduplicating variant).  JavaScript
string primitives are modelled for the ASCII inputs the program uses:
`toLowerCase` as character-wise ASCII lowering, `trim` as stripping the
whitespace characters the code can encounter, `replace('@', '')` as deletion
of the first occurrence, `includes` as substring containment.
-/

namespace LinearBot

/-- JS whitespace characters relevant to this codebase (`\s`, `trim`). -/
def isJsSpace (c : Char) : Bool :=
  c = ' ' || c = '\t' || c = '\n' || c = '\r' || c = '\x0b' || c = '\x0c'

/-- Character-wise lowering, modelling `String.prototype.toLowerCase` on the
ASCII identifiers this program compares. -/
def lowerJs (s : String) : String :=
  String.mk (s.data.map Char.toLower)

def trimLeftList (cs : List Char) : List Char := cs.dropWhile (isJsSpace ·)

def trimList (cs : List Char) : List Char :=
  ((trimLeftList cs).reverse.dropWhile (isJsSpace ·)).reverse

/-- `String.prototype.trim`. -/
def trimJs (s : String) : String := String.mk (trimList s.data)

/-- `str.replace('@', '')`: JS `replace` with a string pattern removes only the
first occurrence. -/
def removeFirstChar (c : Char) : List Char → List Char
  | [] => []
  | x :: xs => if x = c then xs else x :: removeFirstChar c xs

def stripFirstAt (s : String) : String := String.mk (removeFirstChar '@' s.data)

/-- Is `pat` a prefix of `cs`? -/
def isPrefixList : List Char → List Char → Bool
  | [], _ => true
  | _ :: _, [] => false
  | p :: ps, c :: cs => p = c && isPrefixList ps cs

/-- Is `pat` a contiguous substring of `cs`?  Models `String.prototype.includes`. -/
def infixOfList (pat : List Char) : List Char → Bool
  | [] => isPrefixList pat []
  | c :: cs => isPrefixList pat (c :: cs) || infixOfList pat cs

/-- `s.includes(sub)`. -/
def includesJs (s sub : String) : Bool := infixOfList sub.data s.data

/-- `email.split('@')[0]`: the part before the first `'@'` (the whole string if
there is none). -/
def emailLocal (s : String) : String := String.mk (s.data.takeWhile (· ≠ '@'))

/-! ## Identity Directory (`src/config/userMappings.ts`, latest variant) -/

structure UserMapping where
  telegramUsername : String
  linearName : String
  linearEmail : String
  aliases : List String
  deriving DecidableEq, Repr

def USER_MAPPINGS : List UserMapping := [
  { telegramUsername := "Flouflof", linearName := "florent",
    linearEmail := "florent@mobula.io",
    aliases := ["florent", "flo", "floflo", "flouflof", "floflouf", "flou", "flouf"] },
  { telegramUsername := "cocyril", linearName := "cyril",
    linearEmail := "cyril@mobula.io",
    aliases := ["cyril", "coco"] },
  { telegramUsername := "sacha_xyz", linearName := "sachadelox",
    linearEmail := "goat@mobula.io",
    aliases := ["sachadelox", "delox", "sacha_xyz", "goat"] },
  { telegramUsername := "Mrg77i", linearName := "morgan",
    linearEmail := "morgan@mobula.io",
    aliases := ["morgan", "mrg"] },
  { telegramUsername := "NBMXyeu", linearName := "teo",
    linearEmail := "teo@mobula.io",
    aliases := ["teo", "tÃ©o", "xyeu"] },
  { telegramUsername := "NBMSacha", linearName := "sacha",
    linearEmail := "sacha@mobula.io",
    aliases := ["sacha", "nbmsacha"] },
  { telegramUsername := "Sandy0209", linearName := "sanjay",
    linearEmail := "sanjay@mobula.io",
    aliases := ["sandy", "sanjay", "sand"] },
  { telegramUsername := "thecryptogange", linearName := "aurelien",
    linearEmail := "aurelien@mobula.io",
    aliases := ["aurelien", "aure"] },
  { telegramUsername := "KrabsP", linearName := "yassine",
    linearEmail := "yassine@mobula.io",
    aliases := ["yassine", "krabs"] },
  { telegramUsername := "peterpan0x", linearName := "peter",
    linearEmail := "pantaovay@gmail.com",
    aliases := ["peter", "peterpan", "pan"] },
  { telegramUsername := "Doven1995", linearName := "doven",
    linearEmail := "huangdongxc@gmail.com",
    aliases := ["doven"] },
  { telegramUsername := "duwuxie1001", linearName := "jaxon",
    linearEmail := "duwenjie1001@gmail.com",
    aliases := ["jaxon", "duwenjie"] }
]

/-- `findLinearUserByIdentifier(identifier)`: normalizes by lowercasing and
deleting the first `'@'`, then returns the first mapping whose telegram
username, linear name, linear email, or one of whose aliases equals the
normalized identifier. -/
def findLinearUserByIdentifier (identifier : String) : Option UserMapping :=
  let normalizedId := stripFirstAt (lowerJs identifier)
  USER_MAPPINGS.find? (fun user =>
    lowerJs user.telegramUsername == normalizedId ||
    lowerJs user.linearName == normalizedId ||
    lowerJs user.linearEmail == normalizedId ||
    user.aliases.any (fun al => lowerJs al == normalizedId))

/-! ## Tracker users and the identity resolver
(`AIService.findUserByName`, latest variant) -/

structure LinearUser where
  id : String
  name : String
  displayName : String
  email : String
  deriving DecidableEq, Repr

/-- Steps 1-5 of the directory-driven cascade of `findUserByName`, tried only
when the Identity Directory produced a `mapping`: exact email match, then
email-local-part match, then `name`/`linearName` substring match in either
direction, then `displayName`/`linearName` substring match in either
direction, then, for each alias in order, a substring match of the alias
inside `name`, `displayName` or the email local part. -/
def directoryMatch (users : List LinearUser) (mapping : UserMapping) :
    Option LinearUser :=
  (users.find? (fun u => lowerJs u.email == lowerJs mapping.linearEmail)).orElse
  fun _ =>
  (users.find? (fun u =>
      lowerJs (emailLocal u.email) == lowerJs (emailLocal mapping.linearEmail))).orElse
  fun _ =>
  (users.find? (fun u =>
      includesJs (lowerJs u.name) (lowerJs mapping.linearName) ||
      includesJs (lowerJs mapping.linearName) (lowerJs u.name))).orElse
  fun _ =>
  (users.find? (fun u =>
      includesJs (lowerJs u.displayName) (lowerJs mapping.linearName) ||
      includesJs (lowerJs mapping.linearName) (lowerJs u.displayName))).orElse
  fun _ =>
  mapping.aliases.findSome? (fun al =>
    users.find? (fun u =>
      includesJs (lowerJs u.name) (lowerJs al) ||
      includesJs (lowerJs u.displayName) (lowerJs al) ||
      includesJs (lowerJs (emailLocal u.email)) (lowerJs al)))

/-- The generic substring fallback of `findUserByName`: first cached user
whose name, display name or email local part matches the normalized input as
a substring in either direction. -/
def fallbackMatch (users : List LinearUser) (normalizedName : String) :
    Option LinearUser :=
  users.find? (fun user =>
    let userName := lowerJs user.name
    let displayName := lowerJs user.displayName
    let eLocal := lowerJs (emailLocal user.email)
    includesJs userName normalizedName ||
    includesJs displayName normalizedName ||
    includesJs normalizedName userName ||
    includesJs normalizedName displayName ||
    includesJs eLocal normalizedName ||
    includesJs normalizedName eLocal)

/-- `findUserByName(name)` (latest variant): normalizes the input
(lowercase, trim, delete first `'@'`), consults the Identity Directory and,
if it yields a mapping, tries the directory cascade; on cascade failure or a
missing directory entry it falls back to the generic substring search. -/
def findUserByName (users : List LinearUser) (name : String) : Option LinearUser :=
  let normalizedName := stripFirstAt (trimJs (lowerJs name))
  match findLinearUserByIdentifier normalizedName with
  | some mapping => (directoryMatch users mapping).orElse
      fun _ => fallbackMatch users normalizedName
  | none => fallbackMatch users normalizedName

/-- Normalization applied by `findUserByName` before the directory lookup. -/
def normalizeName (name : String) : String := stripFirstAt (trimJs (lowerJs name))

/-! ## Interpreter assignee post-processing
(`parseTicketRequest` / `parseCommand`, latest variant) -/

/-- Assignee fix-up of `parseTicketRequest`: a truthy (non-empty) assignee is
re-resolved; a successful match replaces it with the matched user's name and a
failed match clears it to null.  A missing or empty assignee is left as is. -/
def parseTicketRequestAssignee (users : List LinearUser) :
    Option String → Option String
  | none => none
  | some s =>
    if s = "" then some s
    else match findUserByName users s with
      | some u => some u.name
      | none => none

/-- Assignee fix-up of `parseCommand`: the sentinel strings `"null"`,
`"undefined"` and `""` are first normalized to null; a remaining assignee is
re-resolved, a successful match replaces it with the matched user's name, and
a failed match keeps the oracle's original string. -/
def parseCommandAssignee (users : List LinearUser) :
    Option String → Option String
  | none => none
  | some s =>
    let a := if s = "null" ∨ s = "undefined" ∨ s = "" then none else some s
    match a with
    | none => none
    | some s' =>
      match findUserByName users s' with
      | some u => some u.name
      | none => some s'

/-! ## GraphQL string escaping (`LinearBotService`) -/

/-- One global single-character replacement, modelling
`str.replace(/c/g, rep)`. -/
def replaceAllChar (c : Char) (rep : List Char) (cs : List Char) : List Char :=
  cs.flatMap (fun x => if x = c then rep else [x])

/-- `escapeGraphQLString(str)`: the chained global replacements
backslash → `\\`, quote → `\"`, newline → `\n`, carriage-return → `\r`,
tab → `\t`, in that order.  Used by `createLinearIssue` for the create
mutation. -/
def escapeGraphQLString (s : String) : String :=
  String.mk (replaceAllChar '\t' ['\\', 't']
    (replaceAllChar '\r' ['\\', 'r']
      (replaceAllChar '\n' ['\\', 'n']
        (replaceAllChar '"' ['\\', '"']
          (replaceAllChar '\\' ['\\', '\\'] s.data)))))

/-- The quote-only escaping `newValue.replace(/"/g, '\\"')` used by
`handleEditAction` for the edit-title and edit-description mutations. -/
def escapeQuotesOnly (s : String) : String :=
  String.mk (replaceAllChar '"' ['\\', '"'] s.data)

/-- Single-pass characterization of `escapeGraphQLString`, used in proofs. -/
def gqlEsc1 (c : Char) : List Char :=
  if c = '\\' then ['\\', '\\']
  else if c = '"' then ['\\', '"']
  else if c = '\n' then ['\\', 'n']
  else if c = '\r' then ['\\', 'r']
  else if c = '\t' then ['\\', 't']
  else [c]

/-- Decoding of a GraphQL string escape sequence (`\x` for the escapes the
GraphQL grammar admits). -/
def gqlEscInv (c : Char) : Option Char :=
  if c = '\\' then some '\\'
  else if c = '"' then some '"'
  else if c = '/' then some '/'
  else if c = 'n' then some '\n'
  else if c = 'r' then some '\r'
  else if c = 't' then some '\t'
  else if c = 'b' then some '\x08'
  else if c = 'f' then some '\x0c'
  else none

/-- A conformant GraphQL string-literal unescaper for the content between the
quotes of a single-line string: rejects a dangling or unknown escape, an
unescaped quote, and a raw line terminator (which the GraphQL grammar forbids
inside a string literal); other characters stand for themselves. -/
def gqlUnescape : List Char → Option (List Char)
  | [] => some []
  | c :: rest =>
    if c = '\\' then
      match rest with
      | [] => none
      | d :: rest2 =>
        match gqlEscInv d with
        | some e => (gqlUnescape rest2).map (fun l => e :: l)
        | none => none
    else if c = '\n' ∨ c = '\r' ∨ c = '"' then none
    else (gqlUnescape rest).map (fun l => c :: l)

/-! ## Action dispatcher (`LinearBotService` handlers)

Each handler is modelled as a pure function from the parsed-command fields
and an environment of external-call results to the ordered list of effects it
performs.  Chat-transport plumbing (the `ctx`/`messageId` pair that addresses
the progress message being edited) carries no decision logic and is elided;
an `editMessage` effect records the user-facing text. -/

structure WorkflowState where
  id : String
  name : String
  deriving DecidableEq, Repr

/-- `getStateIdByName(statusName)` applied to the team's workflow-state list:
case-insensitive exact match of the trimmed, lowercased requested name
against each configured state name; first match wins. -/
def getStateIdByName (states : List WorkflowState) (statusName : String) :
    Option String :=
  let normalizedStatus := trimJs (lowerJs statusName)
  (states.find? (fun s => lowerJs s.name == normalizedStatus)).map (fun s => s.id)

/-- `getUserIdByName(name)` of `AIService`: resolve through `findUserByName`
and project the tracker user id. -/
def getUserIdByName (users : List LinearUser) (name : String) : Option String :=
  (findUserByName users name).map (fun u => u.id)

/-- The field mutated by an `issueUpdate` call, with the exact string embedded
in the mutation payload. -/
inductive UpdateInput where
  | title (v : String)
  | description (v : String)
  | assigneeId (v : String)
  | stateId (v : String)
  deriving DecidableEq, Repr

/-- A call to the tracker API, in program order. -/
inductive TrackerCall where
  | issueQuery (identifier : String)
  | usersQuery
  | workflowStatesQuery
  | issueCreate (title : String) (description : String) (assigneeId : Option String)
  | rawIssueCreate (title : String) (description : String)
  | issueUpdate (issueId : String) (input : UpdateInput)
  | issueArchive (issueId : String)
  | issueDelete (issueId : String)
  deriving DecidableEq, Repr

/-- An observable effect of an entry point, in program order. -/
inductive Eff where
  | reply (msg : String)
  | editMessage (msg : String)
  | answerCb (msg : String)
  | tracker (call : TrackerCall)
  | redisHsetIssue (issueId : String)
  | redisSaddChatIssue (chatId : Int) (issueId : String)
  | redisDelIssue (issueId : String)
  | redisSremChatIssue (chatId : Int) (issueId : String)
  | redisLpushHistory (chatId : Int)
  | redisLtrimHistory (chatId : Int)
  | redisExpireHistory (chatId : Int)
  deriving DecidableEq, Repr

structure CreatedIssue where
  id : String
  identifier : String
  title : String
  stateName : Option String
  assigneeName : Option String
  deriving DecidableEq, Repr

/-- Results of the external calls a dispatch may perform: the ticket-ref →
issue-id lookup, the cached tracker user list, the team's workflow states
(`none` models a failed states query), mutation outcomes, and the response
fields echoed back by successful mutations. -/
structure DispatchEnv where
  resolveIssueId : String → Option String
  users : List LinearUser
  workflowStates : Option (List WorkflowState)
  updateSuccess : Bool
  updateAssigneeResp : Option String
  updateStateNameResp : Option String
  archiveSuccess : Bool
  deleteSuccess : Bool
  createResult : Option CreatedIssue

/-- JS template rendering of a possibly-null string value. -/
def renderJsVal : Option String → String
  | none => "null"
  | some s => s

/-- JS truthiness of a possibly-null string. -/
def truthy : Option String → Bool
  | none => false
  | some s => s ≠ ""

def msgAssignNoTicket : String :=
  "❌ <b>Could not identify the ticket</b>\n\nPlease specify the ticket (e.g., \"assign MOB-1234 to Cyril\")"

def msgAssignNoAssignee : String :=
  "❌ <b>Could not identify the assignee</b>\n\nPlease specify who to assign (e.g., \"assign MOB-1234 to Cyril\")"

def msgTicketNotFound (tid : String) : String :=
  "❌ <b>Ticket " ++ tid ++ " not found</b>"

def msgUserNotFound (who : String) : String :=
  "❌ <b>User \"" ++ who ++ "\" not found</b>"

def msgAssignSuccess (tid who : String) : String :=
  "✅ <b>Ticket " ++ tid ++ " assigned to " ++ who ++ "</b>"

def msgAssignFailed (tid : String) : String :=
  "❌ <b>Failed to assign ticket " ++ tid ++ "</b>"

/-- `handleAssignAction(ctx, messageId, ticketIdentifier, assigneeName)`:
fails closed on a missing ticket reference, then on a missing assignee, both
before any tracker call; then resolves the ticket, resolves the assignee
through the identity resolver, and issues a single `issueUpdate` mutation. -/
def handleAssignAction (env : DispatchEnv)
    (ticketIdentifier assigneeName : Option String) : List Eff :=
  if ¬ truthy ticketIdentifier then [Eff.editMessage msgAssignNoTicket]
  else
    let tid := ticketIdentifier.getD ""
    if ¬ truthy assigneeName then [Eff.editMessage msgAssignNoAssignee]
    else
      let an := assigneeName.getD ""
      Eff.tracker (TrackerCall.issueQuery tid) ::
      match env.resolveIssueId tid with
      | none => [Eff.editMessage (msgTicketNotFound tid)]
      | some issueId =>
        Eff.tracker TrackerCall.usersQuery ::
        match getUserIdByName env.users an with
        | none => [Eff.editMessage (msgUserNotFound an)]
        | some assigneeId =>
          [Eff.tracker (TrackerCall.issueUpdate issueId (UpdateInput.assigneeId assigneeId)),
           Eff.editMessage
             (if env.updateSuccess then
                msgAssignSuccess tid (env.updateAssigneeResp.getD an)
              else msgAssignFailed tid)]

def msgStatusNoTicket : String :=
  "❌ <b>Could not identify the ticket</b>\n\nPlease specify the ticket (e.g., \"set MOB-1234 to In Progress\")"

def msgStatusNoStatus : String :=
  "❌ <b>Could not identify the status</b>\n\nAvailable: Todo, In Progress, In Review, Done, Cancelled"

def msgStatusNotFound (s : String) : String :=
  "❌ <b>Status \"" ++ s ++ "\" not found</b>\n\nAvailable: Todo, In Progress, In Review, Done, Cancelled"

def msgStatusSuccess (tid s : String) : String :=
  "✅ <b>Ticket " ++ tid ++ " updated to \"" ++ s ++ "\"</b>"

def msgStatusFailed (tid : String) : String :=
  "❌ <b>Failed to update ticket " ++ tid ++ "</b>"

/-- `handleStatusAction(ctx, messageId, ticketIdentifier, newStatus)`: fails
closed on missing fields, resolves the ticket, queries the team's workflow
states, resolves the requested name through `getStateIdByName`, and either
rejects with a status-not-found message (zero update mutations) or issues
exactly one `issueUpdate` carrying the resolved state id. -/
def handleStatusAction (env : DispatchEnv)
    (ticketIdentifier newStatus : Option String) : List Eff :=
  if ¬ truthy ticketIdentifier then [Eff.editMessage msgStatusNoTicket]
  else
    let tid := ticketIdentifier.getD ""
    if ¬ truthy newStatus then [Eff.editMessage msgStatusNoStatus]
    else
      let ns := newStatus.getD ""
      Eff.tracker (TrackerCall.issueQuery tid) ::
      match env.resolveIssueId tid with
      | none => [Eff.editMessage (msgTicketNotFound tid)]
      | some issueId =>
        Eff.tracker TrackerCall.workflowStatesQuery ::
        match env.workflowStates.bind (fun sts => getStateIdByName sts ns) with
        | none => [Eff.editMessage (msgStatusNotFound ns)]
        | some stateId =>
          [Eff.tracker (TrackerCall.issueUpdate issueId (UpdateInput.stateId stateId)),
           Eff.editMessage
             (if env.updateSuccess then
                msgStatusSuccess tid (env.updateStateNameResp.getD ns)
              else msgStatusFailed tid)]

def msgEditNoTicket : String :=
  "❌ <b>Could not identify the ticket</b>\n\nPlease specify the ticket (e.g., \"edit MOB-1234\")"

def msgEditMenu (tid : String) : String :=
  "✏️ <b>Edit Ticket " ++ tid ++ "</b>\n\nWhat would you like to edit?"

def msgEditNoTitle : String := "❌ <b>Please provide a new title</b>"

def msgEditStatusNotFound (s : String) : String :=
  "❌ <b>Status \"" ++ s ++ "\" not found</b>\n\nAvailable: Todo, In Progress, In Review, Done"

def msgEditUnknownField : String := "❌ <b>Unknown field to edit</b>"

def msgEditSuccess (tid field : String) : String :=
  "✅ <b>Ticket " ++ tid ++ " " ++ field ++ " updated!</b>"

def msgEditFailed (field : String) : String :=
  "❌ <b>Failed to update " ++ field ++ "</b>"

/-- Shared tail of `handleEditAction`: issue the built mutation and report. -/
def editMutationEffs (env : DispatchEnv) (issueId : String) (input : UpdateInput)
    (tid successField : String) : List Eff :=
  [Eff.tracker (TrackerCall.issueUpdate issueId input),
   Eff.editMessage
     (if env.updateSuccess then msgEditSuccess tid successField
      else msgEditFailed successField)]

/-- `handleEditAction(ctx, messageId, ticketIdentifier, editField, newValue,
assigneeName)`: missing ticket fails closed; a missing or `"menu"` edit field
returns the interactive field-choice menu instead of mutating; otherwise the
ticket is resolved and exactly one field mutation is issued, with title and
description values escaped by the quote-only replacement. -/
def handleEditAction (env : DispatchEnv)
    (ticketIdentifier editField newValue assigneeName : Option String) : List Eff :=
  if ¬ truthy ticketIdentifier then [Eff.editMessage msgEditNoTicket]
  else
    let tid := ticketIdentifier.getD ""
    if ¬ truthy editField ∨ editField = some "menu" then
      [Eff.editMessage (msgEditMenu tid)]
    else
      Eff.tracker (TrackerCall.issueQuery tid) ::
      match env.resolveIssueId tid with
      | none => [Eff.editMessage (msgTicketNotFound tid)]
      | some issueId =>
        match editField with
        | some "title" =>
          if ¬ truthy newValue then [Eff.editMessage msgEditNoTitle]
          else
            editMutationEffs env issueId
              (UpdateInput.title (escapeQuotesOnly (newValue.getD "")))
              tid "title"
        | some "description" =>
          editMutationEffs env issueId
            (UpdateInput.description (escapeQuotesOnly (newValue.getD "")))
            tid "description"
        | some "assignee" =>
          if truthy assigneeName then
            Eff.tracker TrackerCall.usersQuery ::
            match getUserIdByName env.users (assigneeName.getD "") with
            | none =>
              [Eff.editMessage (msgUserNotFound
                (renderJsVal (if truthy assigneeName then assigneeName else newValue)))]
            | some assigneeId =>
              editMutationEffs env issueId (UpdateInput.assigneeId assigneeId)
                tid "assignee"
          else
            [Eff.editMessage (msgUserNotFound
              (renderJsVal (if truthy assigneeName then assigneeName else newValue)))]
        | some "status" =>
          Eff.tracker TrackerCall.workflowStatesQuery ::
          match env.workflowStates.bind
              (fun sts => getStateIdByName sts (newValue.getD "")) with
          | none => [Eff.editMessage (msgEditStatusNotFound (renderJsVal newValue))]
          | some stateId =>
            editMutationEffs env issueId (UpdateInput.stateId stateId) tid "status"
        | _ => [Eff.editMessage msgEditUnknownField]

def msgCancelNoTicket : String :=
  "❌ <b>Could not identify the ticket</b>\n\nPlease specify the ticket (e.g., \"cancel MOB-1234\")"

def msgCancelled (tid : String) : String :=
  "🗑️ <b>Ticket " ++ tid ++ " Cancelled</b>\n\nThis ticket has been archived."

def msgCancelFailed (tid : String) : String :=
  "❌ <b>Failed to cancel ticket " ++ tid ++ "</b>"

/-- `handleCancelAction`: resolve the ticket then archive (reversible) and
drop the cached record. -/
def handleCancelAction (env : DispatchEnv) (ticketIdentifier : Option String) :
    List Eff :=
  if ¬ truthy ticketIdentifier then [Eff.editMessage msgCancelNoTicket]
  else
    let tid := ticketIdentifier.getD ""
    Eff.tracker (TrackerCall.issueQuery tid) ::
    match env.resolveIssueId tid with
    | none => [Eff.editMessage (msgTicketNotFound tid)]
    | some issueId =>
      Eff.tracker (TrackerCall.issueArchive issueId) ::
      if env.archiveSuccess then
        [Eff.editMessage (msgCancelled tid), Eff.redisDelIssue issueId]
      else [Eff.editMessage (msgCancelFailed tid)]

def msgDeleteNoTicket : String :=
  "❌ <b>Could not identify the ticket</b>\n\nPlease specify the ticket (e.g., \"delete MOB-1234\")"

def msgDeleted (tid : String) : String :=
  "🗑️ <b>Ticket " ++ tid ++ " Permanently Deleted</b>\n\n⚠️ This action cannot be undone."

def msgDeleteFailed (tid : String) : String :=
  "❌ <b>Failed to delete ticket " ++ tid ++ "</b>"

/-- `handleDeleteAction`: resolve the ticket then delete permanently and purge
the cached record and the chat index. -/
def handleDeleteAction (env : DispatchEnv) (chatId : Int)
    (ticketIdentifier : Option String) : List Eff :=
  if ¬ truthy ticketIdentifier then [Eff.editMessage msgDeleteNoTicket]
  else
    let tid := ticketIdentifier.getD ""
    Eff.tracker (TrackerCall.issueQuery tid) ::
    match env.resolveIssueId tid with
    | none => [Eff.editMessage (msgTicketNotFound tid)]
    | some issueId =>
      Eff.tracker (TrackerCall.issueDelete issueId) ::
      if env.deleteSuccess then
        [Eff.editMessage (msgDeleted tid),
         Eff.redisDelIssue issueId,
         Eff.redisSremChatIssue chatId issueId]
      else [Eff.editMessage (msgDeleteFailed tid)]

/-! ## Create action and `createLinearIssue` -/

inductive ActionType where
  | create | edit | cancel | delete | assign | status
  deriving DecidableEq, Repr

/-- The typed command produced by `parseCommand` (latest variant). -/
structure ParsedCommand where
  action : ActionType
  ticketIdentifier : Option String
  assigneeName : Option String
  newStatus : Option String
  title : Option String
  description : Option String
  editField : Option String
  newValue : Option String
  confidence : ℚ

def msgCreateNoTitle : String :=
  "❌ <b>Could not determine ticket title</b>\n\nPlease be more specific about what the ticket should be."

def msgCreateFailed : String :=
  "❌ <b>Failed to create ticket</b>\nPlease try again later."

/-- The Telegram-context suffix `handleCreateAction` appends to the oracle's
description before creating the issue. -/
def createContextSuffix (chatName requestedBy : String) (messageId : Option Int) :
    String :=
  "\n\n---\n" ++ "**Context:** " ++ chatName ++
  (match messageId with
   | some m => " (Message #" ++ toString m ++ ")"
   | none => "") ++
  "\n**Requested by:** @" ++ requestedBy

/-- The confirmation text of `handleCreateAction` (time-dependent pieces are
passed in already rendered). -/
def createSuccessMessage (identifier title description assignee status
    requestedBy createdAtRendered : String) : String :=
  "✅ <b>Ticket Created Successfully!</b>\n\n" ++
  "━━━━━━━━━━━━━━━━━━━━━\n" ++
  "🎫 <b>Ticket:</b> <a href=\"https://linear.app/mobulalabs/issue/" ++ identifier ++
    "\">" ++ identifier ++ "</a>\n" ++
  "📌 <b>Title:</b> " ++ title ++ "\n" ++
  "━━━━━━━━━━━━━━━━━━━━━\n\n" ++
  "📝 <b>Description:</b>\n<i>" ++ description ++ "</i>\n\n" ++
  "👤 <b>Assigned to:</b> " ++ assignee ++ "\n" ++
  "📊 <b>Status:</b> " ++ status ++ "\n" ++
  "🙋 <b>Requested by:</b> " ++ requestedBy ++ "\n" ++
  "🕐 <b>Created at:</b> " ++ createdAtRendered ++ "\n\n" ++
  "🔗 <a href=\"https://linear.app/mobulalabs/issue/" ++ identifier ++
    "\">View in Linear</a>"

/-- `handleCreateAction(ctx, messageId, command)`: rejects a missing title
before any tracker call, resolves the assignee, builds the context-augmented
description, and calls `createLinearIssue`, which escapes both free-text
fields with `escapeGraphQLString`; on success the issue record is persisted
keyed by the returned issue id and the chat index updated. -/
def handleCreateAction (env : DispatchEnv) (chatId : Int)
    (chatName requestedBy createdAtRendered : String) (messageId : Option Int)
    (command : ParsedCommand) : List Eff :=
  if ¬ truthy command.title then [Eff.editMessage msgCreateNoTitle]
  else
    let title := command.title.getD ""
    (if truthy command.assigneeName then [Eff.tracker TrackerCall.usersQuery] else []) ++
    let assigneeId :=
      if truthy command.assigneeName then
        getUserIdByName env.users (command.assigneeName.getD "")
      else none
    let descBase := if truthy command.description then command.description.getD "" else ""
    let fullDescription :=
      descBase ++ createContextSuffix chatName requestedBy messageId
    Eff.tracker (TrackerCall.issueCreate (escapeGraphQLString title)
      (escapeGraphQLString fullDescription) assigneeId) ::
    match env.createResult with
    | none => [Eff.editMessage msgCreateFailed]
    | some issue =>
      [Eff.redisHsetIssue issue.id,
       Eff.redisSaddChatIssue chatId issue.id,
       Eff.editMessage (createSuccessMessage issue.identifier issue.title
         (if truthy command.description then command.description.getD ""
          else "No description")
         ((issue.assigneeName.orElse (fun _ => command.assigneeName)).getD "Unassigned")
         (issue.stateName.getD "Todo") requestedBy createdAtRendered)]

/-! ## The `/ticket` command, the mention handler and the button callbacks
(`launchBot`) -/

/-- Exact-username whitelist check `isUserAuthorized(username)`: a missing
username or one outside `TELEGRAM_ALLOWED_USERNAMES` is unauthorized. -/
def isUserAuthorized (allowed : List String) (username : Option String) : Bool :=
  match username with
  | none => false
  | some u => allowed.contains u

/-- `text.replace(pat, '')` for a string pattern: remove the first occurrence
only. -/
def removeFirstSubstr (pat : List Char) : List Char → List Char
  | [] => []
  | c :: cs =>
    if isPrefixList pat (c :: cs) then (c :: cs).drop pat.length
    else c :: removeFirstSubstr pat cs

/-- `args.split('|')` as used by the `/ticket` command. -/
def splitOnChar (c : Char) (cs : List Char) : List (List Char) :=
  match cs with
  | [] => [[]]
  | x :: xs =>
    let rest := splitOnChar c xs
    if x = c then [] :: rest
    else
      match rest with
      | [] => [[x]]
      | r :: rs => (x :: r) :: rs

/-- `parts.join('|')`. -/
def joinWithChar (c : Char) : List (List Char) → List Char
  | [] => []
  | [p] => p
  | p :: ps => p ++ c :: joinWithChar c ps

def msgTicketUsage : String :=
  "❌ <b>Usage:</b> /ticket &lt;title&gt; | &lt;description&gt;\n\n\n<b>Example:</b>\n/ticket Fix login issue | Users unable to authenticate"

def msgNotAuthorizedCreate : String :=
  "❌ You are not authorized to create issues.\nPlease contact the admin to get access."

def msgCreatingTicket : String := "⏳ Creating Ticket..."

def msgTicketCreateFailed : String :=
  "❌ <b>Failed to create Ticket</b>\nPlease try again later."

def msgTicketCreated (identifier title : String) : String :=
  "✅ <b>Issue Created Successfully!</b> " ++ identifier ++ " — " ++ title

/-- The `/ticket <title> | <description>` command handler: empty arguments get
a usage hint; an unauthorized sender gets a refusal before any tracker call;
otherwise the raw (unescaped) title and description are interpolated into a
create mutation and, on success, the record is stored and the chat index
updated. -/
def ticketCommand (allowed : List String) (username : Option String)
    (chatId : Int) (text : String) (createResult : Option CreatedIssue) :
    List Eff :=
  let args := trimJs (String.mk (removeFirstSubstr "/ticket".data text.data))
  if args = "" then [Eff.reply msgTicketUsage]
  else if ¬ isUserAuthorized allowed username then
    [Eff.reply msgNotAuthorizedCreate]
  else
    let parts := splitOnChar '|' args.data
    let title := trimJs (String.mk (parts.headD []))
    let description := trimJs (String.mk (joinWithChar '|' (parts.drop 1)))
    Eff.reply msgCreatingTicket ::
    Eff.tracker (TrackerCall.rawIssueCreate title description) ::
    match createResult with
    | none => [Eff.editMessage msgTicketCreateFailed]
    | some issue =>
      [Eff.redisHsetIssue issue.id,
       Eff.redisSaddChatIssue chatId issue.id,
       Eff.editMessage (msgTicketCreated issue.identifier issue.title)]

/-- A Telegram message entity: kind, offset, length. -/
structure TgEntity where
  kind : String
  offset : Nat
  length : Nat
  deriving DecidableEq, Repr

/-- `isBotMentioned(text, message)`: a case-insensitive `@botUsername`
substring, or a `mention` entity whose extracted text equals
`@botUsername` case-insensitively. -/
def isBotMentioned (botUsername : Option String) (text : String)
    (entities : List TgEntity) : Bool :=
  match botUsername with
  | none => false
  | some b =>
    includesJs (lowerJs text) (lowerJs ("@" ++ b)) ||
    entities.any (fun e =>
      e.kind == "mention" &&
      lowerJs (String.mk ((text.data.drop e.offset).take e.length)) ==
        lowerJs ("@" ++ b))

/-- Remove every case-insensitive occurrence of `pat` (JS global regex
replace), as `removeBotMention` does for `@botUsername`. -/
def removeAllSubstrCI (pat : List Char) : List Char → List Char
  | [] => []
  | c :: cs =>
    if h : pat ≠ [] ∧
        isPrefixList (pat.map Char.toLower) ((c :: cs).map Char.toLower) = true
    then removeAllSubstrCI pat ((c :: cs).drop pat.length)
    else c :: removeAllSubstrCI pat cs
  termination_by cs => cs.length
  decreasing_by
    · simp only [List.length_drop, List.length_cons]
      cases pat with
      | nil => exact absurd rfl h.1
      | cons p ps => simp only [List.length_cons]; omega
    · simp only [List.length_cons]; omega

/-- `removeBotMention(text)`: strip all case-insensitive `@botUsername`
occurrences and trim. -/
def removeBotMention (botUsername : Option String) (text : String) : String :=
  match botUsername with
  | none => text
  | some b => trimJs (String.mk (removeAllSubstrCI ("@" ++ b).data text.data))

def msgNotAuthorizedUse : String :=
  "❌ You are not authorized to use this bot.\nPlease contact the admin to get access."

def msgHowToUse : String :=
  "💡 <b>How to use me:</b>\n\n" ++
  "📝 <b>Create:</b> <i>\"create a ticket for Sandy to fix the login bug\"</i>\n" ++
  "✏️ <b>Edit:</b> <i>\"edit this ticket\"</i> or <i>\"edit MOB-1234\"</i>\n" ++
  "❌ <b>Cancel:</b> <i>\"cancel this ticket\"</i>\n" ++
  "👤 <b>Assign:</b> <i>\"assign this ticket to Cyril\"</i>\n" ++
  "📊 <b>Status:</b> <i>\"set this ticket to In Progress\"</i>"

def msgAnalyzing : String := "🤖 Analyzing your request..."

def msgCouldNotUnderstand : String :=
  "❌ <b>Could not understand your request</b>\n\nTry something like:\n" ++
  "<i>\"Create a ticket for Sandy to fix the login bug\"</i>\n" ++
  "<i>\"Cancel this ticket\"</i>\n" ++
  "<i>\"Assign MOB-1234 to Cyril\"</i>"

/-- The switch at the end of the mention handler: route the parsed command to
its action handler (`create` is also the `default` arm). -/
def dispatchCommand (env : DispatchEnv) (chatId : Int)
    (chatName requestedBy createdAtRendered : String) (messageId : Option Int)
    (command : ParsedCommand) : List Eff :=
  match command.action with
  | ActionType.edit =>
    handleEditAction env command.ticketIdentifier command.editField
      command.newValue command.assigneeName
  | ActionType.cancel => handleCancelAction env command.ticketIdentifier
  | ActionType.delete => handleDeleteAction env chatId command.ticketIdentifier
  | ActionType.assign =>
    handleAssignAction env command.ticketIdentifier command.assigneeName
  | ActionType.status =>
    handleStatusAction env command.ticketIdentifier command.newStatus
  | ActionType.create =>
    handleCreateAction env chatId chatName requestedBy createdAtRendered
      messageId command

/-- The mention-triggered message handler (`bot.on('message')`): a text
message is first pushed into the bounded chat history; a message that does
not mention the bot is ignored; an unauthorized sender gets a refusal before
the oracle or any tracker call; an empty remaining message gets usage tips;
otherwise the oracle result (`oracle`, the modelled `parseCommand` output) is
thresholded at confidence 0.5 and dispatched.  Redis context reads (recent
tickets, history) carry no decision logic here and are modelled through the
environment. -/
def onMessage (allowed : List String) (botUsername : Option String)
    (username : Option String) (chatId : Int) (hasText : Bool) (text : String)
    (entities : List TgEntity) (oracle : Option ParsedCommand)
    (env : DispatchEnv) (chatName requestedBy createdAtRendered : String)
    (messageId : Option Int) : List Eff :=
  (if hasText then
    [Eff.redisLpushHistory chatId, Eff.redisLtrimHistory chatId,
     Eff.redisExpireHistory chatId]
   else []) ++
  if ¬ hasText then []
  else if ¬ isBotMentioned botUsername text entities then []
  else if ¬ isUserAuthorized allowed username then [Eff.reply msgNotAuthorizedUse]
  else if trimJs (removeBotMention botUsername text) = "" then
    [Eff.reply msgHowToUse]
  else
    Eff.reply msgAnalyzing ::
    match oracle with
    | none => [Eff.editMessage msgCouldNotUnderstand]
    | some command =>
      if command.confidence < (1 : ℚ) / 2 then
        [Eff.editMessage msgCouldNotUnderstand]
      else
        dispatchCommand env chatId chatName requestedBy createdAtRendered
          messageId command

def msgCbNotAuthorized : String := "❌ You are not authorized"

def msgCbUpdating : String := "Updating status..."

def msgCbTicketNotFound (tid : String) : String :=
  "❌ <b>Ticket " ++ tid ++ " not found</b>"

def msgCbStatusNotFound (s : String) : String :=
  "❌ <b>Status \"" ++ s ++ "\" not found</b>"

def msgCbStatusUpdated (tid s : String) : String :=
  "✅ <b>Ticket " ++ tid ++ " updated to \"" ++ s ++ "\"</b>"

def msgCbStatusFailed : String := "❌ <b>Failed to update status</b>"

/-- The `setstatus_<status>_<identifier>` button callback: authorization is
checked before anything else; then the ticket is resolved, the status name
matched against the team's workflow states and a single update mutation
issued. -/
def setstatusCallback (allowed : List String) (username : Option String)
    (env : DispatchEnv) (newStatus issueIdentifier : String) : List Eff :=
  if ¬ isUserAuthorized allowed username then [Eff.answerCb msgCbNotAuthorized]
  else
    Eff.answerCb msgCbUpdating ::
    Eff.tracker (TrackerCall.issueQuery issueIdentifier) ::
    match env.resolveIssueId issueIdentifier with
    | none => [Eff.editMessage (msgCbTicketNotFound issueIdentifier)]
    | some issueId =>
      Eff.tracker TrackerCall.workflowStatesQuery ::
      match env.workflowStates.bind (fun sts => getStateIdByName sts newStatus) with
      | none => [Eff.editMessage (msgCbStatusNotFound newStatus)]
      | some stateId =>
        [Eff.tracker (TrackerCall.issueUpdate issueId (UpdateInput.stateId stateId)),
         Eff.editMessage
           (if env.updateSuccess then msgCbStatusUpdated issueIdentifier newStatus
            else msgCbStatusFailed)]

def msgCbCancelled : String := "Ticket cancelled!"

def msgCbCancelledText : String :=
  "🗑️ <b>Ticket Cancelled</b>\n\nThis ticket has been archived."

def msgCbCancelFailed : String := "Failed to cancel ticket"

/-- The `cancel_<issueId>` button callback: authorization first, then the
archive mutation on the issue id carried by the button, then local-cache
cleanup. -/
def cancelCallback (allowed : List String) (username : Option String)
    (env : DispatchEnv) (issueId : String) : List Eff :=
  if ¬ isUserAuthorized allowed username then [Eff.answerCb msgCbNotAuthorized]
  else
    Eff.tracker (TrackerCall.issueArchive issueId) ::
    if env.archiveSuccess then
      [Eff.answerCb msgCbCancelled, Eff.editMessage msgCbCancelledText,
       Eff.redisDelIssue issueId]
    else [Eff.answerCb msgCbCancelFailed]

/-! ## Issue store and webhook reconciler
(`updateIssueStatuss`, `LinearWebhookController`, deduplicating variant) -/

structure TgComment where
  text : String
  author : String
  createdAt : String
  deriving DecidableEq, Repr

/-- The denormalized issue record persisted under `issue:<issueId>`; the
`comments` field models the JSON-serialized comment array, whose
stringify/`parseComments` round trip is the identity on well-typed comment
lists. -/
structure IssueHash where
  chatId : Int
  username : String
  firstName : String
  lastName : String
  team : String
  issueId : String
  identifier : String
  title : String
  description : String
  status : String
  createdAt : String
  updatedAt : String
  comments : List TgComment
  deriving DecidableEq, Repr

/-- The issue store, keyed by tracker issue id. -/
def IssueStore : Type := List (String × IssueHash)

def lookupIssue (store : IssueStore) (issueId : String) : Option IssueHash :=
  List.lookup issueId store

def setIssue (store : IssueStore) (issueId : String) (h : IssueHash) : IssueStore :=
  (issueId, h) :: store

/-- An inbound comment as the webhook controller passes it (`date` may be
absent). -/
structure CommentIn where
  text : String
  author : String
  date : Option String
  deriving DecidableEq, Repr

/-- `updateIssueStatuss(issueId, status, comment?)`: a missing cached record
is a no-op; otherwise the stored record is re-read, the comment (if any)
appended with a defaulted timestamp, every field rebuilt from the stored data
except `status` (set to the argument) and `updatedAt` (set to now), the
record persisted under the same issue id, and one notification sent to the
record's origin chat (the rendered text is elided; the notification records
its destination chat). -/
def updateIssueStatuss (store : IssueStore) (issueId status : String)
    (comment : Option CommentIn) (nowIso : String) : IssueStore × List Int :=
  match lookupIssue store issueId with
  | none => (store, [])
  | some data =>
    let comments := data.comments ++
      (match comment with
       | some c =>
         [{ text := c.text, author := c.author,
            createdAt := if truthy c.date then c.date.getD "" else nowIso }]
       | none => [])
    let issue : IssueHash :=
      { chatId := data.chatId, username := data.username,
        firstName := data.firstName, lastName := data.lastName,
        team := data.team, issueId := data.issueId,
        identifier := data.identifier, title := data.title,
        description := data.description, status := status,
        createdAt := data.createdAt, updatedAt := nowIso,
        comments := comments }
    (setIssue store issueId issue, [issue.chatId])

/-- The body of a Linear webhook delivery as the controller reads it
(optional chaining modelled by `Option`). -/
structure WebhookData where
  id : Option String
  identifier : Option String
  stateName : Option String
  body : Option String
  issueId : Option String
  userName : Option String
  createdAt : Option String
  deriving DecidableEq, Repr

structure WebhookPayload where
  action : String
  ptype : Option String
  data : WebhookData
  deriving DecidableEq, Repr

/-- `LinearWebhookController.handle` (deduplicating variant), after the
immediate `'ok'` acknowledgment: a status update with all three of
id/identifier/state present is dropped if `lastProcessedState` already maps
the identifier to that state name, otherwise recorded and forwarded to
`updateIssueStatuss`; a comment creation with body/issue id/user present is
forwarded with an empty status string. -/
def webhookHandle (lastProcessedState : List (String × String))
    (store : IssueStore) (p : WebhookPayload) (nowIso : String) :
    (List (String × String)) × IssueStore × List Int :=
  let step1 :=
    if p.action = "update" then
      if truthy p.data.id && truthy p.data.identifier && truthy p.data.stateName then
        let id := p.data.id.getD ""
        let identifier := p.data.identifier.getD ""
        let stateName := p.data.stateName.getD ""
        if List.lookup identifier lastProcessedState = some stateName then
          (lastProcessedState, store, ([] : List Int))
        else
          let lps := (identifier, stateName) :: lastProcessedState
          let r := updateIssueStatuss store id stateName none nowIso
          (lps, r.1, r.2)
      else (lastProcessedState, store, [])
    else (lastProcessedState, store, [])
  if p.action = "create" ∧ p.ptype = some "Comment" then
    if truthy p.data.body && truthy p.data.issueId && truthy p.data.userName then
      let r := updateIssueStatuss step1.2.1 (p.data.issueId.getD "") ""
        (some { text := p.data.body.getD "", author := p.data.userName.getD "",
                date := p.data.createdAt }) nowIso
      (step1.1, r.1, step1.2.2 ++ r.2)
    else step1
  else step1

/-! ## Oracle-output repair (`AIService.cleanJsonResponse`, latest variant)

The three regex replacements are modelled at their observable behaviour:
`/^```json\s*/im` and `/^```\s*/im` delete the first line-start occurrence of
the fence (case-insensitively for the letters) together with the following
whitespace run, and `/\s*```\s*$/im` deletes the leftmost whitespace-framed
fence that sits at a line end. -/

def backtickChar : Char := ("`".data).headD ' '

def fenceJson : List Char := "```json".data

def fenceBare : List Char := "```".data

/-- Case-insensitive prefix test (the `i` regex flag). -/
def isPrefixCI : List Char → List Char → Bool
  | [], _ => true
  | _ :: _, [] => false
  | p :: ps, c :: cs => Char.toLower p = Char.toLower c && isPrefixCI ps cs

/-- Is this position a line start (`^` under the `m` flag)? `true` initially
and right after a line terminator. -/
def isLineTerm (c : Char) : Bool := c = '\n' || c = '\r'

/-- Scan for the first line-start case-insensitive occurrence of `pat` and
delete it together with the trailing `\s*` run; the rest is untouched. -/
def stripFenceGo (pat : List Char) (lineStart : Bool) (acc : List Char) :
    List Char → List Char
  | [] => acc.reverse
  | c :: cs =>
    if lineStart && isPrefixCI pat (c :: cs) then
      acc.reverse ++ trimLeftList ((c :: cs).drop pat.length)
    else stripFenceGo pat (isLineTerm c) (c :: acc) cs

/-- `content.replace(/^```json\s*​/im, '')`. -/
def stripFirstFenceJson (cs : List Char) : List Char :=
  stripFenceGo fenceJson true [] cs

/-- `.replace(/^```\s*​/im, '')`. -/
def stripFirstFenceBare (cs : List Char) : List Char :=
  stripFenceGo fenceBare true [] cs

/-- `$` under the `m` flag: end of input or just before a line terminator. -/
def atLineEnd : List Char → Bool
  | [] => true
  | c :: _ => isLineTerm c

/-- Match `\s*```\s*$` anchored at the current position, returning the length
of the matched span.  The leading `\s*` can only match its full greedy run
(anything shorter leaves a whitespace character where a backtick is
required); the trailing `\s*` backtracks greedily until `$` holds. -/
def trailingFenceMatchLen (cs : List Char) : Option Nat :=
  let sp := (cs.takeWhile (isJsSpace ·)).length
  let r1 := cs.drop sp
  if isPrefixList fenceBare r1 then
    let r2 := r1.drop 3
    let run := (r2.takeWhile (isJsSpace ·)).length
    ((List.range (run + 1)).reverse.find? (fun k => atLineEnd (r2.drop k))).map
      (fun k => sp + 3 + k)
  else none

/-- `.replace(/\s*```\s*$/im, '')`: delete the leftmost match. -/
def stripTrailingFence : List Char → List Char
  | [] => []
  | c :: cs =>
    match trailingFenceMatchLen (c :: cs) with
    | some n => (c :: cs).drop n
    | none => c :: stripTrailingFence cs

/-- `cleaned.match(/\{[\s\S]*\}/)`: from the first `{` that has a later `}`,
up to the last `}` of the input (the greedy `[\s\S]*`). -/
def extractBracesFrom : List Char → Option (List Char)
  | [] => none
  | c :: cs =>
    if c = '\x7b' then
      let tail := cs.reverse.dropWhile (· ≠ '\x7d')
      if tail = [] then extractBracesFrom cs
      else some ('\x7b' :: tail.reverse)
    else extractBracesFrom cs

/-- Escape sequences for raw control characters inside string values. -/
def escCtrl (c : Char) : List Char :=
  if c = '\n' then ['\\', 'n']
  else if c = '\r' then ['\\', 'r']
  else if c = '\t' then ['\\', 't']
  else [c]

/-- The character-by-character walk of `cleanJsonResponse`: a quote not
preceded by a backslash toggles the in-string flag; inside a string raw
newlines, carriage returns and tabs are escaped; everything else is copied.
The initial `prevChar` is the empty string, modelled as `none`. -/
def escapeCtrlWalk (inString : Bool) (prev : Option Char) :
    List Char → List Char
  | [] => []
  | c :: rest =>
    if c = '"' ∧ prev ≠ some '\\' then
      c :: escapeCtrlWalk (!inString) (some c) rest
    else if inString then escCtrl c ++ escapeCtrlWalk inString (some c) rest
    else c :: escapeCtrlWalk inString (some c) rest

/-- `cleanJsonResponse(content)`: strip the fences, trim, fall back to the
greedy `{...}` extraction if a fence survives, then run the control-character
escaping walk. -/
def cleanJsonResponse (content : List Char) : List Char :=
  let cleaned := trimList (stripTrailingFence
    (stripFirstFenceBare (stripFirstFenceJson content)))
  let cleaned2 :=
    if infixOfList fenceBare cleaned then
      match extractBracesFrom cleaned with
      | some m => m
      | none => cleaned
    else cleaned
  escapeCtrlWalk false none cleaned2

/-! ### A strict JSON decoder (to state decodability of repaired output) -/

inductive MiniJson where
  | str (s : List Char)
  | obj (fields : List (List Char × MiniJson))

def isJsonWs (c : Char) : Bool :=
  c = ' ' || c = '\t' || c = '\n' || c = '\r'

def skipWs (cs : List Char) : List Char := cs.dropWhile (isJsonWs ·)

def jsonEscInv (c : Char) : Option Char :=
  if c = '"' then some '"'
  else if c = '\\' then some '\\'
  else if c = '/' then some '/'
  else if c = 'n' then some '\n'
  else if c = 'r' then some '\r'
  else if c = 't' then some '\t'
  else if c = 'b' then some '\x08'
  else if c = 'f' then some '\x0c'
  else none

/-- Parse the remainder of a JSON string literal (opening quote already
consumed).  A raw control character (below `0x20`) is a parse error, as in
every conformant JSON parser. -/
def parseJsonStr : Nat → List Char → Option (List Char × List Char)
  | 0, _ => none
  | _ + 1, [] => none
  | fuel + 1, c :: rest =>
    if c = '"' then some ([], rest)
    else if c = '\\' then
      match rest with
      | [] => none
      | d :: rest2 =>
        match jsonEscInv d with
        | some e => (parseJsonStr fuel rest2).map (fun p => (e :: p.1, p.2))
        | none => none
    else if c.toNat < 32 then none
    else (parseJsonStr fuel rest).map (fun p => (c :: p.1, p.2))

mutual

def parseJsonValue : Nat → List Char → Option (MiniJson × List Char)
  | 0, _ => none
  | fuel + 1, cs =>
    match skipWs cs with
    | '"' :: rest => (parseJsonStr fuel rest).map (fun p => (MiniJson.str p.1, p.2))
    | '\x7b' :: rest =>
      match skipWs rest with
      | '\x7d' :: rest2 => some (MiniJson.obj [], rest2)
      | _ => (parseJsonFields fuel rest).map (fun p => (MiniJson.obj p.1, p.2))
    | _ => none

def parseJsonFields : Nat →
    List Char → Option (List (List Char × MiniJson) × List Char)
  | 0, _ => none
  | fuel + 1, cs =>
    match skipWs cs with
    | '"' :: rest =>
      match parseJsonStr fuel rest with
      | none => none
      | some (key, r1) =>
        match skipWs r1 with
        | ':' :: r2 =>
          match parseJsonValue fuel r2 with
          | none => none
          | some (v, r3) =>
            match skipWs r3 with
            | ',' :: r4 =>
              (parseJsonFields fuel r4).map (fun p => ((key, v) :: p.1, p.2))
            | '\x7d' :: r4 => some ([(key, v)], r4)
            | _ => none
        | _ => none
    | _ => none

end

/-- Strict JSON decoding of a whole input. -/
def jsonDecode (cs : List Char) : Option MiniJson :=
  match parseJsonValue (cs.length + 2) cs with
  | some (v, rest) => if skipWs rest = [] then some v else none
  | none => none

/-! ### The well-behaved oracle-output family for the amended sanitization
property: a flat JSON object rendered with raw control characters inside its
string values, wrapped in markdown fences. -/

/-- Key characters: no quote, backslash, backtick or control character (the
backtick exclusion is stated on the lowered character, which is equivalent,
since lowering only maps uppercase letters). -/
def plainKeyChar (c : Char) : Prop :=
  c ≠ '"' ∧ c ≠ '\\' ∧ Char.toLower c ≠ backtickChar ∧
  c ≠ '\n' ∧ c ≠ '\r' ∧ c ≠ '\t'

/-- Value characters: no quote, backslash or backtick (raw newlines, carriage
returns and tabs allowed). -/
def plainValChar (c : Char) : Prop :=
  c ≠ '"' ∧ c ≠ '\\' ∧ Char.toLower c ≠ backtickChar

def wfPairs (pairs : List (List Char × List Char)) : Prop :=
  ∀ p ∈ pairs, (∀ c ∈ p.1, plainKeyChar c) ∧ (∀ c ∈ p.2, plainValChar c)

def renderEntry (k v : List Char) : List Char :=
  '"' :: (k ++ ('"' :: ':' :: '"' :: (v ++ ['"'])))

def renderItems : List (List Char × List Char) → List Char
  | [] => ['\x7d']
  | (k, v) :: rest =>
    renderEntry k v ++
      (match rest with
       | [] => ['\x7d']
       | _ :: _ => ',' :: renderItems rest)

/-- The oracle's raw object text: string values carry raw control chars. -/
def renderRaw (pairs : List (List Char × List Char)) : List Char :=
  '\x7b' :: renderItems pairs

def escVal (v : List Char) : List Char := v.flatMap escCtrl

def renderEscEntry (k v : List Char) : List Char :=
  '"' :: (k ++ ('"' :: ':' :: '"' :: (escVal v ++ ['"'])))

def renderEscItems : List (List Char × List Char) → List Char
  | [] => ['\x7d']
  | (k, v) :: rest =>
    renderEscEntry k v ++
      (match rest with
       | [] => ['\x7d']
       | _ :: _ => ',' :: renderEscItems rest)

/-- The properly escaped, unfenced original. -/
def renderEscaped (pairs : List (List Char × List Char)) : List Char :=
  '\x7b' :: renderEscItems pairs

/-- Markdown-fence wrapping as the oracle produces it. -/
def fenceWrap (cs : List Char) : List Char :=
  "```json\n".data ++ cs ++ "\n```".data

/-! ### Concrete inputs for the sanitization counterexample -/

/-- A syntactically well-formed object text except for one raw newline inside
the `"b"` string value; the `"a"` value ends in an escaped backslash. -/
def oracleRawBody : List Char :=
  "\x7b\"a\":\"x\\\\\",\"b\":\"l\nm\"\x7d".data

def oracleFenced : List Char := fenceWrap oracleRawBody

/-- The same object with the newline properly escaped. -/
def oracleEscapedBody : List Char :=
  "\x7b\"a\":\"x\\\\\",\"b\":\"l\\nm\"\x7d".data

/-! ## Effect classifiers and concrete fixtures used by witnesses -/

/-- Is this effect a call to the tracker API? -/
def effIsTracker : Eff → Bool
  | Eff.tracker _ => true
  | _ => false

/-- Does this effect write an issue record (the per-issue hash or the
per-chat issue index)? -/
def effWritesIssueStore : Eff → Bool
  | Eff.redisHsetIssue _ => true
  | Eff.redisSaddChatIssue _ _ => true
  | _ => false

/-- The `Flouflof` directory entry. -/
def florentMapping : UserMapping :=
  { telegramUsername := "Flouflof", linearName := "florent",
    linearEmail := "florent@mobula.io",
    aliases := ["florent", "flo", "floflo", "flouflof", "floflouf", "flou",
      "flouf"] }

/-- The `NBMSacha` directory entry. -/
def sachaMapping : UserMapping :=
  { telegramUsername := "NBMSacha", linearName := "sacha",
    linearEmail := "sacha@mobula.io", aliases := ["sacha", "nbmsacha"] }

def sachaMarcusUser : LinearUser :=
  { id := "lin-sacha", name := "sacha", displayName := "Sacha Marcus",
    email := "sacha@mobula.io" }

def deloxUser : LinearUser :=
  { id := "lin-delox", name := "sachadelox", displayName := "Delox",
    email := "goat@mobula.io" }

/-- A cached tracker user list in which the generic substring fallback would
hit `deloxUser` first for the input `"sacha"`. -/
def sampleUsers : List LinearUser := [deloxUser, sachaMarcusUser]

def sampleStates : List WorkflowState :=
  [{ id := "st-todo", name := "Todo" },
   { id := "st-prog", name := "In Progress" },
   { id := "st-done", name := "Done" }]

/-- A concrete dispatch environment for witnesses. -/
def envFixture : DispatchEnv :=
  { resolveIssueId := fun t =>
      if t = "MOB-1" then some "uuid-1"
      else if t = "MOB-7" then some "uuid-7"
      else none,
    users := sampleUsers,
    workflowStates := some sampleStates,
    updateSuccess := true,
    updateAssigneeResp := none,
    updateStateNameResp := none,
    archiveSuccess := true,
    deleteSuccess := true,
    createResult := none }

def issueRecFixture : IssueHash :=
  { chatId := 42, username := "Sandy0209", firstName := "Sandy",
    lastName := "", team := "Mobula", issueId := "lin-1",
    identifier := "MOB-1", title := "Fix login bug",
    description := "Users unable to authenticate", status := "In Progress",
    createdAt := "2024-01-01T00:00:00Z", updatedAt := "2024-01-01T00:00:00Z",
    comments := [] }

/-- A comment-creation webhook delivery for issue `lin-1`. -/
def commentPayloadFixture : WebhookPayload :=
  { action := "create", ptype := some "Comment",
    data := { id := none, identifier := none, stateName := none,
              body := some "Looks good", issueId := some "lin-1",
              userName := some "Sacha", createdAt := some "2024-02-02T00:00:00Z" } }

/-- A one-field object whose value carries a raw newline, for the
sanitization witness. -/
def pairsFixture : List (List Char × List Char) := [("a".data, "x\ny".data)]

/-- The comment of `commentPayloadFixture` as the controller forwards it. -/
def commentInFixture : CommentIn :=
  { text := "Looks good", author := "Sacha",
    date := some "2024-02-02T00:00:00Z" }

/-- A status-update webhook delivery for issue `lin-1`. -/
def updatePayloadFixture : WebhookPayload :=
  { action := "update", ptype := none,
    data := { id := some "lin-1", identifier := some "MOB-1",
              stateName := some "Done", body := none, issueId := none,
              userName := none, createdAt := none } }

/-! # Theorems -/

/-- C10: looking up any Identity Directory entry by its own tracker email
returns null: the lookup deletes the first `'@'` of the input before
comparing, so the normalized form of an email address equals neither the
stored email nor (for any entry of this table) a handle, canonical name or
alias. -/
theorem email_lookup_misses_every_entry :
    ∀ m ∈ USER_MAPPINGS, findLinearUserByIdentifier m.linearEmail = none := by
  decide

/-- Witness for C10 at the first directory entry. -/
theorem email_lookup_misses_every_entry_witness :
    florentMapping ∈ USER_MAPPINGS ∧
    findLinearUserByIdentifier "florent@mobula.io" = none :=
  ⟨by decide, email_lookup_misses_every_entry florentMapping (by decide)⟩

/-- C1 counterexample: in `parseCommand` an assignee the resolver cannot
match is NOT cleared to null — the oracle's raw guess `"zzz"` survives
validation even though `findUserByName` fails on it, refuting the claim that
both interpreter entry points clear an unresolved assignee. -/
theorem parseCommand_keeps_unresolved_assignee :
    findUserByName [] "zzz" = none ∧
    parseCommandAssignee [] (some "zzz") = some "zzz" := by
  exact ⟨by decide, by decide⟩

/-- C1 amended: when the identity resolver fails on a non-sentinel assignee
string, `parseTicketRequest` clears the field to null, but `parseCommand`
keeps the oracle's raw guess (after normalizing only the sentinel strings
`"null"`, `"undefined"` and `""` to null). -/
theorem assignee_cleared_only_in_parseTicketRequest
    (users : List LinearUser) (s : String)
    (h1 : s ≠ "null") (h2 : s ≠ "undefined") (h3 : s ≠ "")
    (hf : findUserByName users s = none) :
    parseTicketRequestAssignee users (some s) = none ∧
    parseCommandAssignee users (some s) = some s := by
  constructor
  · simp only [parseTicketRequestAssignee, if_neg h3, hf]
  · simp only [parseCommandAssignee]
    rw [if_neg (by simp [h1, h2, h3])]
    simp only [hf]

/-- Witness for the amended C1 at the unresolvable input `"zzz"` over an
empty tracker-user cache. -/
theorem assignee_cleared_only_in_parseTicketRequest_witness :
    parseTicketRequestAssignee [] (some "zzz") = none ∧
    parseCommandAssignee [] (some "zzz") = some "zzz" :=
  assignee_cleared_only_in_parseTicketRequest [] "zzz" (by decide) (by decide)
    (by decide) (by decide)

/-- C7: whenever the Identity Directory has an entry for the normalized input
and any directory-driven matching rule produces a cached tracker user, the
resolver returns exactly that user — the generic substring fallback is never
consulted. -/
theorem directory_match_outranks_fallback (users : List LinearUser)
    (name : String) (m : UserMapping) (u : LinearUser)
    (hm : findLinearUserByIdentifier (normalizeName name) = some m)
    (hd : directoryMatch users m = some u) :
    findUserByName users name = some u := by
  have hm' : findLinearUserByIdentifier (stripFirstAt (trimJs (lowerJs name))) =
      some m := hm
  simp only [findUserByName, hm', hd]
  rfl

/-- Witness for C7: the shared short name `"sacha"` resolves to the
directory-preferred Sacha Marcus even though the generic substring fallback
would return Delox (whose `sachadelox` tracker name also contains `"sacha"`
and comes first in the cache). -/
theorem directory_match_outranks_fallback_witness :
    (findLinearUserByIdentifier (normalizeName "sacha") = some sachaMapping ∧
     directoryMatch sampleUsers sachaMapping = some sachaMarcusUser) ∧
    findUserByName sampleUsers "sacha" = some sachaMarcusUser ∧
    fallbackMatch sampleUsers (normalizeName "sacha") = some deloxUser :=
  ⟨⟨by decide, by decide⟩,
   directory_match_outranks_fallback sampleUsers "sacha" sachaMapping
     sachaMarcusUser (by decide) (by decide),
   by decide⟩

/-! ### Escaping lemmas (C3) -/

theorem replaceAllChar_cons (a : Char) (ra : List Char) (c : Char)
    (cs : List Char) :
    replaceAllChar a ra (c :: cs) =
      (if c = a then ra else [c]) ++ replaceAllChar a ra cs := by
  simp [replaceAllChar]

theorem replaceAllChar_append (a : Char) (ra : List Char) (xs ys : List Char) :
    replaceAllChar a ra (xs ++ ys) =
      replaceAllChar a ra xs ++ replaceAllChar a ra ys := by
  simp [replaceAllChar]

/-- The five chained global replacements of `escapeGraphQLString` coincide
with a single per-character pass. -/
theorem escape_chain_eq_flatMap (cs : List Char) :
    replaceAllChar '\t' ['\\', 't']
      (replaceAllChar '\r' ['\\', 'r']
        (replaceAllChar '\n' ['\\', 'n']
          (replaceAllChar '"' ['\\', '"']
            (replaceAllChar '\\' ['\\', '\\'] cs)))) = cs.flatMap gqlEsc1 := by
  induction cs with
  | nil => rfl
  | cons c cs ih =>
    rw [replaceAllChar_cons, replaceAllChar_append, replaceAllChar_append,
      replaceAllChar_append, replaceAllChar_append, ih, List.flatMap_cons]
    congr 1
    by_cases h1 : c = '\\'
    · subst h1; rfl
    by_cases h2 : c = '"'
    · subst h2; rfl
    by_cases h3 : c = '\n'
    · subst h3; rfl
    by_cases h4 : c = '\r'
    · subst h4; rfl
    by_cases h5 : c = '\t'
    · subst h5; rfl
    simp [gqlEsc1, replaceAllChar, h1, h2, h3, h4, h5]

theorem escapeGraphQLString_data (s : String) :
    (escapeGraphQLString s).data = s.data.flatMap gqlEsc1 :=
  escape_chain_eq_flatMap s.data

/-- The conformant unescaper inverts the per-character escaping pass. -/
theorem gqlUnescape_flatMap (cs : List Char) :
    gqlUnescape (cs.flatMap gqlEsc1) = some cs := by
  induction cs with
  | nil => rfl
  | cons c cs ih =>
    rw [List.flatMap_cons]
    by_cases h1 : c = '\\'
    · subst h1; simp [gqlEsc1, gqlUnescape, gqlEscInv, ih]
    by_cases h2 : c = '"'
    · subst h2; simp [gqlEsc1, gqlUnescape, gqlEscInv, ih]
    by_cases h3 : c = '\n'
    · subst h3; simp [gqlEsc1, gqlUnescape, gqlEscInv, ih]
    by_cases h4 : c = '\r'
    · subst h4; simp [gqlEsc1, gqlUnescape, gqlEscInv, ih]
    by_cases h5 : c = '\t'
    · subst h5; simp [gqlEsc1, gqlUnescape, gqlEscInv, ih]
    have he : gqlEsc1 c = [c] := by simp [gqlEsc1, h1, h2, h3, h4, h5]
    rw [he, List.cons_append, List.nil_append, gqlUnescape.eq_def]
    simp [h1, h2, h3, h4, ih]

/-- C3 counterexample: the edit-title mutation built by `handleEditAction`
escapes only double quotes, so for the one-character value `"\"` (a single
backslash) the string embedded in the mutation payload is a lone backslash —
a dangling escape that no conformant GraphQL unescaper decodes back to the
original value. -/
theorem edit_title_escape_not_invertible :
    handleEditAction envFixture (some "MOB-1") (some "title") (some "\\") none =
      [Eff.tracker (TrackerCall.issueQuery "MOB-1"),
       Eff.tracker (TrackerCall.issueUpdate "uuid-1"
         (UpdateInput.title (escapeQuotesOnly "\\"))),
       Eff.editMessage (msgEditSuccess "MOB-1" "title")] ∧
    escapeQuotesOnly "\\" = "\\" ∧
    gqlUnescape ((escapeQuotesOnly "\\").data) = none := by
  exact ⟨by decide, by decide, by decide⟩

/-- C3 amended: the create mutation built by `createLinearIssue` escapes
backslash, quote, newline, carriage-return and tab via `escapeGraphQLString`,
and every string round-trips through a conformant GraphQL unescaper; the
edit-title and edit-description mutations escape only double quotes, so their
payloads do not round-trip for values containing a backslash or raw control
characters (see the counterexample). -/
theorem create_escape_roundtrip (s : String) :
    gqlUnescape ((escapeGraphQLString s).data) = some s.data := by
  rw [escapeGraphQLString_data]
  exact gqlUnescape_flatMap s.data

/-- C5: an assign command whose ticket reference is null (or whose assignee
is missing) is never dispatched as an assign — `handleAssignAction` issues no
tracker call at all and replies with the field-specific rejection. -/
theorem assign_fails_closed (env : DispatchEnv)
    (ticketIdentifier assigneeName : Option String)
    (h : ¬ truthy ticketIdentifier ∨ ¬ truthy assigneeName) :
    (handleAssignAction env ticketIdentifier assigneeName).all
        (fun e => !effIsTracker e) = true ∧
    (handleAssignAction env ticketIdentifier assigneeName =
        [Eff.editMessage msgAssignNoTicket] ∨
     handleAssignAction env ticketIdentifier assigneeName =
        [Eff.editMessage msgAssignNoAssignee]) := by
  by_cases ht : truthy ticketIdentifier
  · have ha : ¬ truthy assigneeName = true := by
      rcases h with h | h
      · exact absurd ht h
      · exact h
    refine ⟨?_, Or.inr ?_⟩ <;> simp [handleAssignAction, ht, ha, effIsTracker]
  · refine ⟨?_, Or.inl ?_⟩ <;> simp [handleAssignAction, ht, effIsTracker]

/-- Witness for C5: a null ticket reference with a resolvable assignee is
rejected with zero tracker calls. -/
theorem assign_fails_closed_witness :
    (handleAssignAction envFixture none (some "cyril")).all
        (fun e => !effIsTracker e) = true ∧
    (handleAssignAction envFixture none (some "cyril") =
        [Eff.editMessage msgAssignNoTicket] ∨
     handleAssignAction envFixture none (some "cyril") =
        [Eff.editMessage msgAssignNoAssignee]) :=
  assign_fails_closed envFixture none (some "cyril") (Or.inl (by decide))

/-- C6: on a resolvable ticket, `handleStatusAction` resolves the requested
status name by case-insensitive exact match against the team's configured
workflow states (`getStateIdByName`); a match yields exactly one update
mutation carrying the resolved state id, and a non-matching name is rejected
with a status-not-found message and zero update mutations. -/
theorem status_resolution (env : DispatchEnv) (tid ns iid : String)
    (states : List WorkflowState)
    (h1 : tid ≠ "") (h2 : ns ≠ "")
    (hres : env.resolveIssueId tid = some iid)
    (hws : env.workflowStates = some states) :
    (∀ sid, getStateIdByName states ns = some sid →
      handleStatusAction env (some tid) (some ns) =
        [Eff.tracker (TrackerCall.issueQuery tid),
         Eff.tracker TrackerCall.workflowStatesQuery,
         Eff.tracker (TrackerCall.issueUpdate iid (UpdateInput.stateId sid)),
         Eff.editMessage (if env.updateSuccess then
             msgStatusSuccess tid (env.updateStateNameResp.getD ns)
           else msgStatusFailed tid)]) ∧
    (getStateIdByName states ns = none →
      handleStatusAction env (some tid) (some ns) =
        [Eff.tracker (TrackerCall.issueQuery tid),
         Eff.tracker TrackerCall.workflowStatesQuery,
         Eff.editMessage (msgStatusNotFound ns)]) := by
  have htid : truthy (some tid) = true := by simp [truthy, h1]
  have hns : truthy (some ns) = true := by simp [truthy, h2]
  constructor
  · intro sid hsid
    simp [handleStatusAction, htid, hns, hres, hws, hsid]
  · intro hnone
    simp [handleStatusAction, htid, hns, hres, hws, hnone]

/-- Witness for C6: over states `[Todo, In Progress, Done]`, the request
`"In Progress"` resolves to its state id and issues one update mutation,
while `"Doing"` is rejected with zero update mutations. -/
theorem status_resolution_witness :
    (envFixture.resolveIssueId "MOB-7" = some "uuid-7" ∧
     envFixture.workflowStates = some sampleStates ∧
     getStateIdByName sampleStates "In Progress" = some "st-prog" ∧
     getStateIdByName sampleStates "Doing" = none) ∧
    handleStatusAction envFixture (some "MOB-7") (some "In Progress") =
      [Eff.tracker (TrackerCall.issueQuery "MOB-7"),
       Eff.tracker TrackerCall.workflowStatesQuery,
       Eff.tracker (TrackerCall.issueUpdate "uuid-7" (UpdateInput.stateId "st-prog")),
       Eff.editMessage (if envFixture.updateSuccess then
           msgStatusSuccess "MOB-7" (envFixture.updateStateNameResp.getD "In Progress")
         else msgStatusFailed "MOB-7")] ∧
    handleStatusAction envFixture (some "MOB-7") (some "Doing") =
      [Eff.tracker (TrackerCall.issueQuery "MOB-7"),
       Eff.tracker TrackerCall.workflowStatesQuery,
       Eff.editMessage (msgStatusNotFound "Doing")] :=
  ⟨⟨by decide, rfl, by decide, by decide⟩,
   (status_resolution envFixture "MOB-7" "In Progress" "uuid-7" sampleStates
     (by decide) (by decide) (by decide) rfl).1 "st-prog" (by decide),
   (status_resolution envFixture "MOB-7" "Doing" "uuid-7" sampleStates
     (by decide) (by decide) (by decide) rfl).2 (by decide)⟩

/-- C2: delivering the same status-update webhook twice yields exactly one
outbound chat notification: the first delivery records the notified state per
ticket reference in `lastProcessedState` and notifies once; the repeat is
discarded before touching the issue store or the chat platform. -/
theorem webhook_update_idempotent
    (ctrl : List (String × String)) (store : IssueStore)
    (p : WebhookPayload) (i idf st : String) (rec : IssueHash)
    (now1 now2 : String)
    (hpa : p.action = "update")
    (hpid : p.data.id = some i) (hpidf : p.data.identifier = some idf)
    (hpst : p.data.stateName = some st)
    (hi : i ≠ "") (hidf : idf ≠ "") (hst : st ≠ "")
    (hfresh : List.lookup idf ctrl ≠ some st)
    (hrec : lookupIssue store i = some rec) :
    (webhookHandle ctrl store p now1).2.2.length = 1 ∧
    (webhookHandle (webhookHandle ctrl store p now1).1
        (webhookHandle ctrl store p now1).2.1 p now2).2.2 = [] ∧
    (webhookHandle (webhookHandle ctrl store p now1).1
        (webhookHandle ctrl store p now1).2.1 p now2).2.1 =
      (webhookHandle ctrl store p now1).2.1 ∧
    (webhookHandle (webhookHandle ctrl store p now1).1
        (webhookHandle ctrl store p now1).2.1 p now2).1 =
      (webhookHandle ctrl store p now1).1 := by
  have e1 : webhookHandle ctrl store p now1 =
      ((idf, st) :: ctrl,
       (updateIssueStatuss store i st none now1).1,
       (updateIssueStatuss store i st none now1).2) := by
    simp [webhookHandle, hpa, hpid, hpidf, hpst, truthy, hi, hidf, hst, hfresh]
  have e3 : ∀ store2, webhookHandle ((idf, st) :: ctrl) store2 p now2 =
      ((idf, st) :: ctrl, store2, []) := by
    intro store2
    simp [webhookHandle, hpa, hpid, hpidf, hpst, truthy, hi, hidf, hst,
      List.lookup]
  refine ⟨?_, ?_, ?_, ?_⟩
  · rw [e1]
    simp [updateIssueStatuss, hrec]
  · rw [e1, e3]
  · rw [e1, e3]
  · rw [e1, e3]

/-- Witness for C2 on a concrete store and a concrete `"Done"` update. -/
theorem webhook_update_idempotent_witness :
    (webhookHandle [] [("lin-1", issueRecFixture)] updatePayloadFixture
        "t1").2.2.length = 1 ∧
    (webhookHandle
        (webhookHandle [] [("lin-1", issueRecFixture)] updatePayloadFixture "t1").1
        (webhookHandle [] [("lin-1", issueRecFixture)] updatePayloadFixture
          "t1").2.1
        updatePayloadFixture "t2").2.2 = [] ∧
    (webhookHandle
        (webhookHandle [] [("lin-1", issueRecFixture)] updatePayloadFixture "t1").1
        (webhookHandle [] [("lin-1", issueRecFixture)] updatePayloadFixture
          "t1").2.1
        updatePayloadFixture "t2").2.1 =
      (webhookHandle [] [("lin-1", issueRecFixture)] updatePayloadFixture
        "t1").2.1 ∧
    (webhookHandle
        (webhookHandle [] [("lin-1", issueRecFixture)] updatePayloadFixture "t1").1
        (webhookHandle [] [("lin-1", issueRecFixture)] updatePayloadFixture
          "t1").2.1
        updatePayloadFixture "t2").1 =
      (webhookHandle [] [("lin-1", issueRecFixture)] updatePayloadFixture "t1").1 :=
  webhook_update_idempotent [] [("lin-1", issueRecFixture)] updatePayloadFixture
    "lin-1" "MOB-1" "Done" issueRecFixture "t1" "t2" rfl rfl rfl rfl
    (by decide) (by decide) (by decide) (by decide) (by decide)

/-- C4 counterexample: a comment-only webhook does NOT leave the stored
status unchanged — `updateIssueStatuss` rebuilds the record with the status
argument the controller passed, which is the empty string for comments, so a
record cached as `"In Progress"` is persisted with status `""` (the comment
itself is appended exactly once). -/
theorem comment_webhook_overwrites_status :
    issueRecFixture.status = "In Progress" ∧
    (lookupIssue (webhookHandle [] [("lin-1", issueRecFixture)]
        commentPayloadFixture "t3").2.1 "lin-1").map (fun r => r.status) =
      some "" ∧
    (lookupIssue (webhookHandle [] [("lin-1", issueRecFixture)]
        commentPayloadFixture "t3").2.1 "lin-1").map
      (fun r => r.comments.length) = some 1 := by
  exact ⟨rfl, by decide, by decide⟩

/-- C4 amended: a comment-only webhook applied to an existing record appends
exactly one comment, keeps the record under the same issue id, emits one
notification to the origin chat, preserves every stored field except
`status` — which is unconditionally overwritten with the controller's status
argument, the empty string for comment deliveries — and `updatedAt`; records
under other keys are untouched. -/
theorem comment_update_appends_and_overwrites_status
    (store : IssueStore) (iid : String) (data : IssueHash) (c : CommentIn)
    (nowIso : String) (h : lookupIssue store iid = some data) :
    lookupIssue (updateIssueStatuss store iid "" (some c) nowIso).1 iid =
      some (IssueHash.mk data.chatId data.username data.firstName
        data.lastName data.team data.issueId data.identifier data.title
        data.description "" data.createdAt nowIso
        (data.comments ++ [TgComment.mk c.text c.author
          (if truthy c.date then c.date.getD "" else nowIso)])) ∧
    (updateIssueStatuss store iid "" (some c) nowIso).2 = [data.chatId] ∧
    (∀ k, k ≠ iid →
      lookupIssue (updateIssueStatuss store iid "" (some c) nowIso).1 k =
        lookupIssue store k) := by
  have h' : List.lookup iid store = some data := h
  refine ⟨?_, ?_, ?_⟩
  · simp [updateIssueStatuss, h', setIssue, lookupIssue, List.lookup]
  · simp [updateIssueStatuss, h', lookupIssue]
  · intro k hk
    have hbeq : (k == iid) = false := by simp [hk]
    simp [updateIssueStatuss, h', setIssue, lookupIssue, List.lookup, hbeq]

/-- Witness for the amended C4 on the concrete fixture record. -/
theorem comment_update_appends_and_overwrites_status_witness :
    lookupIssue (updateIssueStatuss [("lin-1", issueRecFixture)] "lin-1" ""
        (some commentInFixture) "t3").1 "lin-1" =
      some (IssueHash.mk issueRecFixture.chatId issueRecFixture.username
        issueRecFixture.firstName issueRecFixture.lastName issueRecFixture.team
        issueRecFixture.issueId issueRecFixture.identifier issueRecFixture.title
        issueRecFixture.description "" issueRecFixture.createdAt "t3"
        (issueRecFixture.comments ++ [TgComment.mk commentInFixture.text
          commentInFixture.author
          (if truthy commentInFixture.date then commentInFixture.date.getD ""
           else "t3")])) ∧
    (updateIssueStatuss [("lin-1", issueRecFixture)] "lin-1" ""
        (some commentInFixture) "t3").2 = [issueRecFixture.chatId] ∧
    (∀ k, k ≠ "lin-1" →
      lookupIssue (updateIssueStatuss [("lin-1", issueRecFixture)] "lin-1" ""
          (some commentInFixture) "t3").1 k =
        lookupIssue [("lin-1", issueRecFixture)] k) :=
  comment_update_appends_and_overwrites_status [("lin-1", issueRecFixture)]
    "lin-1" issueRecFixture commentInFixture "t3" (by decide)

/-- C9: a sender with no username or one outside the whitelist never causes a
tracker call and never stores an issue record: the `/ticket` command replies
with the authorization refusal (the empty-argument usage hint aside, where no
tracker call is reachable anyway), a mention-triggered message gets the
refusal right after the chat-history bookkeeping, a non-text message causes
nothing, and the status/cancel button callbacks answer with the refusal
before any tracker call. -/
theorem unauthorized_never_mutates (allowed : List String)
    (username : Option String) (chatId : Int) (text : String)
    (createResult : Option CreatedIssue) (botUsername : Option String)
    (entities : List TgEntity) (oracle : Option ParsedCommand)
    (env : DispatchEnv) (chatName requestedBy createdAtRendered : String)
    (messageId : Option Int) (newStatus issueIdentifier issueId : String)
    (hA : isUserAuthorized allowed username = false) :
    ((ticketCommand allowed username chatId text createResult).all
        (fun e => !effIsTracker e && !effWritesIssueStore e) = true ∧
     (trimJs (String.mk (removeFirstSubstr "/ticket".data text.data)) ≠ "" →
       ticketCommand allowed username chatId text createResult =
         [Eff.reply msgNotAuthorizedCreate])) ∧
    ((onMessage allowed botUsername username chatId true text entities oracle
        env chatName requestedBy createdAtRendered messageId).all
        (fun e => !effIsTracker e && !effWritesIssueStore e) = true ∧
     (isBotMentioned botUsername text entities = true →
       onMessage allowed botUsername username chatId true text entities oracle
         env chatName requestedBy createdAtRendered messageId =
         [Eff.redisLpushHistory chatId, Eff.redisLtrimHistory chatId,
          Eff.redisExpireHistory chatId, Eff.reply msgNotAuthorizedUse])) ∧
    onMessage allowed botUsername username chatId false text entities oracle
      env chatName requestedBy createdAtRendered messageId = [] ∧
    setstatusCallback allowed username env newStatus issueIdentifier =
      [Eff.answerCb msgCbNotAuthorized] ∧
    cancelCallback allowed username env issueId =
      [Eff.answerCb msgCbNotAuthorized] := by
  refine ⟨⟨?_, ?_⟩, ⟨?_, ?_⟩, ?_, ?_, ?_⟩
  · by_cases hargs :
      trimJs (String.mk (removeFirstSubstr "/ticket".data text.data)) = ""
    · simp [ticketCommand, hargs, effIsTracker, effWritesIssueStore]
    · simp [ticketCommand, hargs, hA, effIsTracker, effWritesIssueStore]
  · intro hne
    simp [ticketCommand, hne, hA]
  · by_cases hm : isBotMentioned botUsername text entities
    · simp [onMessage, hm, hA, effIsTracker, effWritesIssueStore]
    · simp [onMessage, hm, effIsTracker, effWritesIssueStore]
  · intro hm
    simp [onMessage, hm, hA]
  · simp [onMessage]
  · simp [setstatusCallback, hA]
  · simp [cancelCallback, hA]

/-- Witness for C9: the non-whitelisted sender `"eve"` is refused by the
`/ticket` command with no tracker call and by the status button callback. -/
theorem unauthorized_never_mutates_witness :
    isUserAuthorized ["Sandy0209"] (some "eve") = false ∧
    ticketCommand ["Sandy0209"] (some "eve") 7
        "/ticket Fix login bug | details" none =
      [Eff.reply msgNotAuthorizedCreate] ∧
    setstatusCallback ["Sandy0209"] (some "eve") envFixture "Done" "MOB-1" =
      [Eff.answerCb msgCbNotAuthorized] :=
  ⟨by decide,
   (unauthorized_never_mutates ["Sandy0209"] (some "eve") 7
     "/ticket Fix login bug | details" none (some "mobula_bot") [] none
     envFixture "Mobula" "eve" "t" none "Done" "MOB-1" "uuid-1"
     (by decide)).1.2 (by decide),
   (unauthorized_never_mutates ["Sandy0209"] (some "eve") 7
     "/ticket Fix login bug | details" none (some "mobula_bot") [] none
     envFixture "Mobula" "eve" "t" none "Done" "MOB-1" "uuid-1"
     (by decide)).2.2.2.1⟩

/-! ### Sanitization lemmas (C8) -/

theorem fenceBare_eq : fenceBare = backtickChar :: backtickChar :: backtickChar :: [] := rfl

theorem toLower_backtick : Char.toLower backtickChar = backtickChar := by decide

theorem ne_backtick_of_toLower {c : Char}
    (h : Char.toLower c ≠ backtickChar) : c ≠ backtickChar := by
  intro hc
  exact h (hc ▸ toLower_backtick)

/-- The language-fence stripper deletes exactly the leading fence line. -/
theorem stripFenceJson_wrap (X : List Char) :
    stripFirstFenceJson ("```json\n".data ++ ('\x7b' :: X)) = '\x7b' :: X := rfl

theorem isPrefixCI_fence_false {c : Char}
    (hc : Char.toLower c ≠ backtickChar) (cs : List Char) :
    isPrefixCI fenceBare (c :: cs) = false := by
  rw [fenceBare_eq]
  simp [isPrefixCI, toLower_backtick, Ne.symm hc]

/-- Scanning a backtick-free block followed by a newline and a bare fence
removes exactly the fence, keeping the newline. -/
theorem stripFenceBare_no_backtick (Z : List Char)
    (h : ∀ c ∈ Z, Char.toLower c ≠ backtickChar) :
    ∀ (b : Bool) (acc : List Char),
      stripFenceGo fenceBare b acc (Z ++ '\n' :: fenceBare) =
        acc.reverse ++ (Z ++ ['\n']) := by
  induction Z with
  | nil =>
    intro b acc
    show stripFenceGo fenceBare b acc ('\n' :: fenceBare) = acc.reverse ++ ['\n']
    rw [fenceBare_eq]
    cases b <;>
      simp [stripFenceGo, isPrefixCI, isLineTerm, trimLeftList, toLower_backtick,
        show backtickChar ≠ Char.toLower '\n' from by decide,
        show ¬ isJsSpace backtickChar = true from by decide]
  | cons c Z ih =>
    intro b acc
    have hc : Char.toLower c ≠ backtickChar := h c (List.mem_cons_self c Z)
    have h' : ∀ x ∈ Z, Char.toLower x ≠ backtickChar := fun x hx =>
      h x (List.mem_cons_of_mem c hx)
    have hfalse := isPrefixCI_fence_false hc (Z ++ '\n' :: fenceBare)
    rw [List.cons_append, stripFenceGo, if_neg (by simp [hfalse]), ih h']
    simp

theorem trailingFenceMatchLen_no_backtick (W : List Char)
    (h : ∀ c ∈ W, c ≠ backtickChar) : trailingFenceMatchLen W = none := by
  have hfix : isPrefixList fenceBare
      (W.drop ((W.takeWhile (isJsSpace ·)).length)) = false := by
    cases hd : W.drop ((W.takeWhile (isJsSpace ·)).length) with
    | nil => rw [fenceBare_eq]; rfl
    | cons c r =>
      have hcW : c ∈ W :=
        List.drop_subset _ W (hd ▸ List.mem_cons_self c r)
      rw [fenceBare_eq]
      simp [isPrefixList, Ne.symm (h c hcW)]
  simp [trailingFenceMatchLen, hfix]

theorem stripTrailingFence_no_backtick (W : List Char)
    (h : ∀ c ∈ W, c ≠ backtickChar) : stripTrailingFence W = W := by
  induction W with
  | nil => rfl
  | cons c W ih =>
    have hnone := trailingFenceMatchLen_no_backtick (c :: W) h
    rw [stripTrailingFence, hnone,
      ih (fun x hx => h x (List.mem_cons_of_mem c hx))]

theorem infix_fence_no_backtick (W : List Char)
    (h : ∀ c ∈ W, c ≠ backtickChar) : infixOfList fenceBare W = false := by
  induction W with
  | nil => rw [fenceBare_eq]; simp [infixOfList, isPrefixList]
  | cons c W ih =>
    have hc := h c (List.mem_cons_self c W)
    rw [infixOfList]
    have h1 : isPrefixList fenceBare (c :: W) = false := by
      rw [fenceBare_eq]; simp [isPrefixList, Ne.symm hc]
    rw [h1, ih (fun x hx => h x (List.mem_cons_of_mem c hx))]
    rfl

theorem trimList_wrapped (M : List Char) :
    trimList (('\x7b' :: (M ++ ['\x7d'])) ++ ['\n']) = '\x7b' :: (M ++ ['\x7d']) := by
  have h1 : trimLeftList (('\x7b' :: (M ++ ['\x7d'])) ++ ['\n']) =
      ('\x7b' :: (M ++ ['\x7d'])) ++ ['\n'] := by
    simp [trimLeftList, List.dropWhile, isJsSpace]
  rw [trimList, h1]
  simp [List.reverse_append, List.dropWhile, isJsSpace]

theorem renderItems_ends (pairs : List (List Char × List Char)) :
    ∃ M, renderItems pairs = M ++ ['\x7d'] := by
  induction pairs with
  | nil => exact ⟨[], rfl⟩
  | cons p rest ih =>
    obtain ⟨k, v⟩ := p
    cases rest with
    | nil => exact ⟨renderEntry k v, by simp [renderItems]⟩
    | cons q rs =>
      obtain ⟨M, hM⟩ := ih
      refine ⟨renderEntry k v ++ ',' :: M, ?_⟩
      rw [show renderItems ((k, v) :: q :: rs) =
        renderEntry k v ++ ',' :: renderItems (q :: rs) from rfl, hM]
      simp

theorem renderEntry_chars (k v : List Char)
    (hk : ∀ c ∈ k, plainKeyChar c) (hv : ∀ c ∈ v, plainValChar c) :
    ∀ c ∈ renderEntry k v, Char.toLower c ≠ backtickChar := by
  intro c hc
  simp only [renderEntry, List.mem_cons, List.mem_append,
    List.mem_singleton] at hc
  rcases hc with rfl | h | rfl | rfl | rfl | h | h7
  · decide
  · exact (hk c h).2.2.1
  · decide
  · decide
  · decide
  · exact (hv c h).2.2
  · rcases h7 with rfl | h7
    · decide
    · exact absurd h7 (List.not_mem_nil c)

theorem renderItems_chars (pairs : List (List Char × List Char))
    (hwf : wfPairs pairs) :
    ∀ c ∈ renderItems pairs, Char.toLower c ≠ backtickChar := by
  induction pairs with
  | nil =>
    intro c hc
    simp only [renderItems, List.mem_singleton] at hc
    subst hc; decide
  | cons p rest ih =>
    obtain ⟨k, v⟩ := p
    have hk : ∀ c ∈ k, plainKeyChar c := (hwf (k, v) (List.mem_cons_self _ _)).1
    have hv : ∀ c ∈ v, plainValChar c := (hwf (k, v) (List.mem_cons_self _ _)).2
    have hwf' : wfPairs rest := fun q hq => hwf q (List.mem_cons_of_mem _ hq)
    intro c hc
    cases rest with
    | nil =>
      rw [show renderItems [(k, v)] = renderEntry k v ++ ['\x7d'] from rfl] at hc
      rcases List.mem_append.mp hc with h | h
      · exact renderEntry_chars k v hk hv c h
      · rw [List.mem_singleton] at h; subst h; decide
    | cons q rs =>
      rw [show renderItems ((k, v) :: q :: rs) =
        renderEntry k v ++ ',' :: renderItems (q :: rs) from rfl] at hc
      rcases List.mem_append.mp hc with h | h
      · exact renderEntry_chars k v hk hv c h
      · rcases List.mem_cons.mp h with rfl | h
        · decide
        · exact ih hwf' c h

theorem escVal_eq_self (k : List Char)
    (hk : ∀ c ∈ k, c ≠ '\n' ∧ c ≠ '\r' ∧ c ≠ '\t') : escVal k = k := by
  induction k with
  | nil => rfl
  | cons c k ih =>
    have hc := hk c (List.mem_cons_self c k)
    rw [show escVal (c :: k) = escCtrl c ++ escVal k from rfl,
      ih (fun x hx => hk x (List.mem_cons_of_mem c hx))]
    simp [escCtrl, hc.1, hc.2.1, hc.2.2]

/-- Walking a string value (up to its closing quote) escapes its raw control
characters and leaves the in-string state toggled off. -/
theorem escapeCtrlWalk_string (v : List Char) :
    ∀ (rest : List Char) (p : Option Char), p ≠ some '\\' →
      (∀ c ∈ v, c ≠ '"' ∧ c ≠ '\\') →
      escapeCtrlWalk true p (v ++ '"' :: rest) =
        escVal v ++ '"' :: escapeCtrlWalk false (some '"') rest := by
  induction v with
  | nil =>
    intro rest p hp _
    simp [escapeCtrlWalk, hp, escVal]
  | cons c v ih =>
    intro rest p hp hv
    have hc := hv c (List.mem_cons_self c v)
    have hv' : ∀ x ∈ v, x ≠ '"' ∧ x ≠ '\\' := fun x hx =>
      hv x (List.mem_cons_of_mem c hx)
    have hp' : some c ≠ some '\\' := by
      intro hh; exact hc.2 (Option.some.inj hh)
    rw [List.cons_append, escapeCtrlWalk, if_neg (by simp [hc.1]), if_pos rfl,
      ih rest (some c) hp' hv']
    rw [show escVal (c :: v) = escCtrl c ++ escVal v from rfl]
    simp

/-- Walking one `"key":"value"` entry escapes the value and hands the walk
over to the tail in structural state. -/
theorem escapeCtrlWalk_entry (k v tail : List Char) (p : Option Char)
    (hp : p ≠ some '\\')
    (hkq : ∀ c ∈ k, c ≠ '"' ∧ c ≠ '\\') (hkplain : escVal k = k)
    (hvq : ∀ c ∈ v, c ≠ '"' ∧ c ≠ '\\') :
    escapeCtrlWalk false p (renderEntry k v ++ tail) =
      renderEscEntry k v ++ escapeCtrlWalk false (some '"') tail := by
  have hshape : renderEntry k v ++ tail =
      '"' :: (k ++ ('"' :: (':' :: '"' :: (v ++ '"' :: tail)))) := by
    simp [renderEntry]
  rw [hshape]
  rw [escapeCtrlWalk, if_pos ⟨rfl, hp⟩]
  simp only [Bool.not_false]
  rw [escapeCtrlWalk_string k _ (some '"') (by simp) hkq, hkplain]
  rw [escapeCtrlWalk, if_neg (by simp), if_neg (by simp)]
  rw [escapeCtrlWalk, if_pos ⟨rfl, by simp⟩]
  simp only [Bool.not_false]
  rw [escapeCtrlWalk_string v _ (some '"') (by simp) hvq]
  rw [renderEscEntry]
  simp

/-- Walking the rendered items in structural state escapes exactly the
values. -/
theorem escapeCtrlWalk_items (pairs : List (List Char × List Char))
    (hwf : wfPairs pairs) :
    ∀ (p : Option Char), p ≠ some '\\' →
      escapeCtrlWalk false p (renderItems pairs) = renderEscItems pairs := by
  induction pairs with
  | nil =>
    intro p hp
    simp [renderItems, renderEscItems, escapeCtrlWalk]
  | cons pr rest ih =>
    obtain ⟨k, v⟩ := pr
    intro p hp
    have hk : ∀ c ∈ k, plainKeyChar c := (hwf (k, v) (List.mem_cons_self _ _)).1
    have hv : ∀ c ∈ v, plainValChar c := (hwf (k, v) (List.mem_cons_self _ _)).2
    have hwf' : wfPairs rest := fun q hq => hwf q (List.mem_cons_of_mem _ hq)
    have hkq : ∀ c ∈ k, c ≠ '"' ∧ c ≠ '\\' := fun c hc =>
      ⟨(hk c hc).1, (hk c hc).2.1⟩
    have hvq : ∀ c ∈ v, c ≠ '"' ∧ c ≠ '\\' := fun c hc =>
      ⟨(hv c hc).1, (hv c hc).2.1⟩
    have hkplain : escVal k = k := escVal_eq_self k (fun c hc =>
      ⟨(hk c hc).2.2.2.1, (hk c hc).2.2.2.2.1, (hk c hc).2.2.2.2.2⟩)
    cases rest with
    | nil =>
      rw [show renderItems [(k, v)] = renderEntry k v ++ ['\x7d'] from rfl]
      rw [escapeCtrlWalk_entry k v _ p hp hkq hkplain hvq]
      rw [show escapeCtrlWalk false (some '"') ['\x7d'] = ['\x7d'] from by
        simp [escapeCtrlWalk]]
      rw [show renderEscItems [(k, v)] = renderEscEntry k v ++ ['\x7d'] from rfl]
    | cons q rs =>
      rw [show renderItems ((k, v) :: q :: rs) =
        renderEntry k v ++ ',' :: renderItems (q :: rs) from rfl]
      rw [escapeCtrlWalk_entry k v _ p hp hkq hkplain hvq]
      rw [escapeCtrlWalk, if_neg (by simp), if_neg (by simp)]
      rw [ih hwf' (some ',') (by simp)]
      rw [show renderEscItems ((k, v) :: q :: rs) =
        renderEscEntry k v ++ ',' :: renderEscItems (q :: rs) from rfl]

/-- C8 counterexample: the oracle output whose `"a"` value ends in an escaped
backslash and whose `"b"` value holds a raw newline defeats the repair — the
walk stops toggling correctly at the quote preceded by a backslash, the raw
newline is left unescaped, and the repaired text is not decodable, while the
properly escaped unfenced original decodes fine. -/
theorem sanitize_repair_not_decodable :
    cleanJsonResponse oracleFenced = oracleRawBody ∧
    jsonDecode (cleanJsonResponse oracleFenced) = none ∧
    jsonDecode oracleEscapedBody =
      some (MiniJson.obj [("a".data, MiniJson.str "x\\".data),
        ("b".data, MiniJson.str "l\nm".data)]) := by
  exact ⟨by rfl, by rfl, by rfl⟩

/-- C8 amended: for a fenced flat JSON object whose string values are free of
quotes, backslashes and backticks (but may contain raw newlines, carriage
returns and tabs), the repair pipeline returns exactly the properly escaped,
unfenced original text — hence it decodes to the same ParsedCommand.  The
restriction is forced by the counterexample: an escaped backslash at the end
of a string value derails the quote-toggling escape walk. -/
theorem sanitize_repair_roundtrip (pairs : List (List Char × List Char))
    (hwf : wfPairs pairs) :
    cleanJsonResponse (fenceWrap (renderRaw pairs)) = renderEscaped pairs := by
  have hitems : ∀ c ∈ renderItems pairs, Char.toLower c ≠ backtickChar :=
    renderItems_chars pairs hwf
  have hraw : ∀ c ∈ renderRaw pairs, Char.toLower c ≠ backtickChar := by
    intro c hc
    rcases List.mem_cons.mp hc with rfl | hc
    · decide
    · exact hitems c hc
  have hrawn : ∀ c ∈ renderRaw pairs ++ ['\n'], c ≠ backtickChar := by
    intro c hc
    rcases List.mem_append.mp hc with hc | hc
    · exact ne_backtick_of_toLower (hraw c hc)
    · rw [List.mem_singleton] at hc; subst hc; decide
  have eA : stripFirstFenceJson (fenceWrap (renderRaw pairs)) =
      renderRaw pairs ++ '\n' :: fenceBare :=
    stripFenceJson_wrap (renderItems pairs ++ '\n' :: fenceBare)
  have eB : stripFirstFenceBare (renderRaw pairs ++ '\n' :: fenceBare) =
      renderRaw pairs ++ ['\n'] := by
    have h := stripFenceBare_no_backtick (renderRaw pairs) hraw true []
    simpa [stripFirstFenceBare] using h
  have eC : stripTrailingFence (renderRaw pairs ++ ['\n']) =
      renderRaw pairs ++ ['\n'] := stripTrailingFence_no_backtick _ hrawn
  obtain ⟨M, hM⟩ := renderItems_ends pairs
  have eD : trimList (renderRaw pairs ++ ['\n']) = renderRaw pairs := by
    rw [show renderRaw pairs = '\x7b' :: renderItems pairs from rfl, hM]
    exact trimList_wrapped M
  have eE : infixOfList fenceBare (renderRaw pairs) = false :=
    infix_fence_no_backtick _ (fun c hc => ne_backtick_of_toLower (hraw c hc))
  simp only [cleanJsonResponse]
  rw [eA, eB, eC, eD, eE]
  simp only [Bool.false_eq_true, if_false]
  rw [show renderRaw pairs = '\x7b' :: renderItems pairs from rfl]
  rw [escapeCtrlWalk, if_neg (by simp), if_neg (by simp)]
  rw [escapeCtrlWalk_items pairs hwf (some '\x7b') (by simp)]
  rfl

/-- Witness for the amended C8: a fenced one-field object whose value holds a
raw newline is repaired to exactly the escaped original. -/
theorem sanitize_repair_roundtrip_witness :
    wfPairs pairsFixture ∧
    cleanJsonResponse (fenceWrap (renderRaw pairsFixture)) =
      renderEscaped pairsFixture :=
  ⟨by unfold wfPairs plainKeyChar plainValChar; decide,
   sanitize_repair_roundtrip pairsFixture
     (by unfold wfPairs plainKeyChar plainValChar; decide)⟩

end LinearBot
